import Mathlib

/-!
Verification development for the financial-model report generator
(`src/backend/report_generator.py`).  The Python code is shallowly embedded:

* Python `float` values are modelled by `PyFloat` (an exact rational payload
  plus the three non-finite values); arithmetic that the code performs on
  finite operands is exact rational arithmetic (float rounding and overflow
  are out of scope of this embedding).
* Python dicts keyed by year are modelled either as `ℤ → Option PyFloat`
  (when only `get`/membership is used) or as association lists
  (when the code enumerates and sorts the keys).
* Fallible parsers return `Option`.

Each embedded definition names the Python function it translates.
-/

namespace ReportGen

/-- Model of a Python `float` value: a finite rational, or one of the three
non-finite values (`nan`, `inf`, `-inf`). -/
inductive PyFloat where
  | finite (q : ℚ)
  | nan
  | inf
  | ninf
deriving DecidableEq

/-- Returns `true` exactly for finite values (`f == f and f not in (inf, -inf)`). -/
def PyFloat.isFinite : PyFloat → Bool
  | .finite _ => true
  | _ => false

/-- Python `v > 0` on a float (`nan > 0` is `False`). -/
def PyFloat.isPos : PyFloat → Bool
  | .finite q => decide (0 < q)
  | .inf => true
  | _ => false

/-- Python unary minus on a float (`-nan` is still a NaN for our purposes:
the embedding does not track NaN sign bits). -/
def PyFloat.neg : PyFloat → PyFloat
  | .finite q => .finite (-q)
  | .nan => .nan
  | .inf => .ninf
  | .ninf => .inf

/-- Multiplication of a Python float by a finite rational constant
(the unit multipliers `1, 1000, 10^6, 10^9` in the code). -/
def PyFloat.mulQ : PyFloat → ℚ → PyFloat
  | .finite q, m => .finite (q * m)
  | .nan, _ => .nan
  | .inf, m => if 0 < m then .inf else if m = 0 then .nan else .ninf
  | .ninf, m => if 0 < m then .ninf else if m = 0 then .nan else .inf

/-- Division of a Python float by a finite rational constant (the template
scale `1000.0` or `10^6`, never zero at the call sites). -/
def PyFloat.divQ (f : PyFloat) (d : ℚ) : PyFloat := f.mulQ d⁻¹

/-- A year-keyed Python dict of floats, seen through `dict.get`:
`none` means the year is absent. -/
def PSeries : Type := ℤ → Option PyFloat

/-- The empty dict. -/
def PSeries.empty : PSeries := fun _ => none

/-- Python `d[y] = v` on a year-keyed dict. -/
def PSeries.set (s : PSeries) (y : ℤ) (v : PyFloat) : PSeries :=
  fun y' => if y' = y then some v else s y'

instance : CoeFun PSeries (fun _ => ℤ → Option PyFloat) := ⟨fun s => s⟩

/-- Model of `_safe_float` (report_generator.py:366-376): return the finite value, and
`None` for `None`, NaN and the two infinities.  Composed with `dict.get`,
so the argument is an `Option PyFloat`. -/
def safeFloat : Option PyFloat → Option ℚ
  | none => none
  | some (.finite q) => some q
  | some _ => none

/-- One row of the result of `_compute_fcf_model`: the per-year field dict
(report_generator.py:463-473).  `none` is Python `None`. -/
structure YearModel where
  free_cash_flow : Option ℚ
  interest : Option ℚ
  amortization : Option ℚ
  total_debt_service : Option ℚ
  fcf_after_debt : Option ℚ
  cash_avail_revolver : Option ℚ
  revolver_draw : Option ℚ
  revolver_balance : Option ℚ
  remaining_cash : Option ℚ
deriving DecidableEq

/-- The body of the `for y in sorted(years)` loop of `_compute_fcf_model`
(report_generator.py:400-473): computes the model entry for year `y` from the
operand dicts and the running `revolver_balance_prior`, and returns the entry
together with the updated prior (unchanged in the actual branch). -/
def fcfYear (adjEbitda capex changeWc oneTime interest amortization : PSeries)
    (isActual : Bool) (fcfHist : PSeries) (prior : ℚ) (y : ℤ) : YearModel × ℚ :=
  let ae := safeFloat (adjEbitda y)
  let cx := safeFloat (capex y)
  let wc := safeFloat (changeWc y)
  let ot := safeFloat (oneTime y)
  let inte := safeFloat (interest y)
  let amor := safeFloat (amortization y)
  if isActual then
    -- `if y in fcf_hist: fcf = _safe_float(fcf_hist[y]) else: fcf = None`
    let fcf : Option ℚ := safeFloat (fcfHist y)
    -- `if interest_total is not None or amort_total is not None: ...`
    let totalDs : Option ℚ :=
      if inte.isSome ∨ amor.isSome then some (inte.getD 0 + amor.getD 0) else none
    let fcfAfterDs : Option ℚ :=
      match fcf, totalDs with
      | some f, some t => some (f - t)
      | some f, none => some f
      | none, _ => none
    ({ free_cash_flow := fcf
       interest := inte
       amortization := amor
       total_debt_service := totalDs
       fcf_after_debt := fcfAfterDs
       cash_avail_revolver := none
       revolver_draw := none
       revolver_balance := none
       remaining_cash := none }, prior)
  else
    let adjVal := ae.getD 0
    let cxVal := cx.getD 0
    let wcVal := wc.getD 0
    let otVal := ot.getD 0
    let fcf := adjVal - |cxVal| - wcVal - |otVal|
    let interestTotal := inte.getD 0
    let amortTotal := amor.getD 0
    let totalDs := interestTotal + amortTotal
    let fcfAfterDs := fcf - totalDs
    let draw : ℚ := if fcfAfterDs < 0 then |fcfAfterDs| else 0
    let remaining : ℚ := if fcfAfterDs < 0 then 0 else fcfAfterDs
    let revolverBalance := prior + draw
    ({ free_cash_flow := some fcf
       interest := some interestTotal
       amortization := some amortTotal
       total_debt_service := some totalDs
       fcf_after_debt := some fcfAfterDs
       cash_avail_revolver := some fcfAfterDs
       revolver_draw := some draw
       revolver_balance := some revolverBalance
       remaining_cash := some remaining }, revolverBalance)

/-- One fold step of `_compute_fcf_model`: compute the entry for `y`, store it
under key `y` (`model[y] = {...}`), and thread the prior. -/
def fcfStep (adjEbitda capex changeWc oneTime interest amortization : PSeries)
    (isActual : Bool) (fcfHist : PSeries)
    (acc : (ℤ → Option YearModel) × ℚ) (y : ℤ) : (ℤ → Option YearModel) × ℚ :=
  let r := fcfYear adjEbitda capex changeWc oneTime interest amortization isActual fcfHist acc.2 y
  (fun y' => if y' = y then some r.1 else acc.1 y', r.2)

/-- Model of `_compute_fcf_model` (report_generator.py:379-475): iterate the years in
ascending order with `revolver_balance_prior = 0.0`, returning the model dict. -/
def computeFcfModel (years : List ℤ)
    (adjEbitda capex changeWc oneTime interest amortization : PSeries)
    (isActual : Bool) (fcfHist : PSeries) : ℤ → Option YearModel :=
  ((List.insertionSort (· ≤ ·) years).foldl
    (fcfStep adjEbitda capex changeWc oneTime interest amortization isActual fcfHist)
    (fun _ => none, 0)).1

section WaterfallValues

variable (adjEbitda capex changeWc oneTime interest amortization fcfHist : PSeries)

/-- The projected-year free cash flow value: every operand is defaulted to `0`
when absent or non-finite (report_generator.py:436-442). -/
def projFcfVal (y : ℤ) : ℚ :=
  (safeFloat (adjEbitda y)).getD 0 - |(safeFloat (capex y)).getD 0|
    - (safeFloat (changeWc y)).getD 0 - |(safeFloat (oneTime y)).getD 0|

/-- The projected-year total debt service (report_generator.py:445-447). -/
def projTotalDs (y : ℤ) : ℚ :=
  (safeFloat (interest y)).getD 0 + (safeFloat (amortization y)).getD 0

/-- The projected-year FCF after debt service (report_generator.py:450). -/
def projFcfAfter (y : ℤ) : ℚ :=
  projFcfVal adjEbitda capex changeWc oneTime y - projTotalDs interest amortization y

/-- The projected-year revolver draw (report_generator.py:453-458). -/
def projDraw (y : ℤ) : ℚ :=
  if projFcfAfter adjEbitda capex changeWc oneTime interest amortization y < 0
  then |projFcfAfter adjEbitda capex changeWc oneTime interest amortization y| else 0

/-- The projected-year remaining cash (report_generator.py:453-458). -/
def projRemaining (y : ℤ) : ℚ :=
  if projFcfAfter adjEbitda capex changeWc oneTime interest amortization y < 0
  then 0 else projFcfAfter adjEbitda capex changeWc oneTime interest amortization y

/-- The actual-year model entry (report_generator.py:408-432): it does not
depend on the revolver prior. -/
def actualEntry (y : ℤ) : YearModel :=
  let inte := safeFloat (interest y)
  let amor := safeFloat (amortization y)
  let fcf := safeFloat (fcfHist y)
  let totalDs : Option ℚ :=
    if inte.isSome ∨ amor.isSome then some (inte.getD 0 + amor.getD 0) else none
  { free_cash_flow := fcf
    interest := inte
    amortization := amor
    total_debt_service := totalDs
    fcf_after_debt :=
      match fcf, totalDs with
      | some f, some t => some (f - t)
      | some f, none => some f
      | none, _ => none
    cash_avail_revolver := none
    revolver_draw := none
    revolver_balance := none
    remaining_cash := none }

end WaterfallValues

/-- A one-entry year dict. -/
def PSeries.single (y : ℤ) (v : PyFloat) : PSeries :=
  fun y' => if y' = y then some v else none

/-! ### String machinery for the parsers

The Python code manipulates `str` values; we model strings as `List Char`
(`String.data`) and mirror the exact operations, including the code's regular
expressions.  Note that the three regexes in `_parse_amount` and the character
class in `_value_mentions_scale` / `_unit_multiplier_from_unit` are written
with doubled backslashes inside raw strings (`r"-?\\d+(?:\\.\\d+)?"` etc.), so
they match a literal backslash followed by literal `d` characters — not
digits.  The embedding reproduces that behaviour faithfully. -/

/-- Python `str.strip()` whitespace set (ASCII). -/
def isPySpace (c : Char) : Bool :=
  c = ' ' ∨ c = '\t' ∨ c = '\n' ∨ c = '\r' ∨ c = '\x0b' ∨ c = '\x0c'

/-- Python `str.strip()`. -/
def pyStrip (l : List Char) : List Char :=
  ((l.dropWhile isPySpace).reverse.dropWhile isPySpace).reverse

/-- Python `str.lower()` (ASCII, as used by the code). -/
def pyLower (l : List Char) : List Char := l.map Char.toLower

/-- Python `str.upper()` (ASCII, as used by the code). -/
def pyUpper (l : List Char) : List Char := l.map Char.toUpper

/-- If `needle` heads `hay` (case-sensitive), return the rest of `hay`. -/
def stripLeadCS : List Char → List Char → Option (List Char)
  | [], t => some t
  | _ :: _, [] => Option.none
  | p :: ps, c :: cs => if c = p then stripLeadCS ps cs else Option.none

/-- If lowercase `needle` heads `hay` case-insensitively, return the rest. -/
def stripLeadCI : List Char → List Char → Option (List Char)
  | [], t => some t
  | _ :: _, [] => Option.none
  | p :: ps, c :: cs => if c.toLower = p then stripLeadCI ps cs else Option.none

/-- Python `needle in hay` (substring containment). -/
def containsSub (needle : List Char) : List Char → Bool
  | [] => needle.isEmpty
  | c :: cs => (stripLeadCS needle (c :: cs)).isSome || containsSub needle cs

/-- Python `str.endswith(suffix)`. -/
def endsWithC (suffix l : List Char) : Bool :=
  (stripLeadCS suffix.reverse l.reverse).isSome

/-- Model of `re.sub(r"(?i)WORD|LIT", "", s)` for a case-insensitive word alternative
`w` (given lowercase) and a literal alternative `lit`: scan left to right,
removing each match (fuel = input length; every match consumes at least one
character since both alternatives are nonempty at all call sites). -/
def subAltAux (w lit : List Char) : ℕ → List Char → List Char
  | 0, _ => []
  | _ + 1, [] => []
  | n + 1, c :: cs =>
    match stripLeadCI w (c :: cs) with
    | some rest => subAltAux w lit n rest
    | Option.none =>
      match stripLeadCS lit (c :: cs) with
      | some rest => subAltAux w lit n rest
      | Option.none => c :: subAltAux w lit n cs

def subAlt (w lit l : List Char) : List Char := subAltAux w lit l.length l

/-- Leading run of literal `d` characters (what the broken regex `\\d+`
actually asks for). -/
def takeDs : List Char → (List Char × List Char)
  | [] => ([], [])
  | c :: cs =>
    if c = 'd' then
      let r := takeDs cs
      (c :: r.1, r.2)
    else ([], c :: cs)

/-- Leading run of ASCII digits. -/
def takeDigits : List Char → (List Char × List Char)
  | [] => ([], [])
  | c :: cs =>
    if c.isDigit then
      let r := takeDigits cs
      (c :: r.1, r.2)
    else ([], c :: cs)

def digitsToNat (l : List Char) : ℕ :=
  l.foldl (fun n c => 10 * n + (c.toNat - 48)) 0

/-- Match of the broken number regex `r"-?\\d+(?:\\.\\d+)?"` at the current
position, after the optional minus: a literal backslash, one or more literal
`d`s, then optionally a literal backslash, any character, a literal backslash
and more literal `d`s.  Returns the matched text and the rest. -/
def matchBrokenCore : List Char → Option (List Char × List Char)
  | '\\' :: rest =>
    match takeDs rest with
    | ([], _) => Option.none
    | (ds, r1) =>
      match r1 with
      | '\\' :: x :: '\\' :: r2 =>
        if x = '\n' then some ('\\' :: ds, r1)
        else
          match takeDs r2 with
          | ([], _) => some ('\\' :: ds, r1)
          | (ds2, r3) => some (('\\' :: ds) ++ ('\\' :: x :: '\\' :: ds2), r3)
      | _ => some ('\\' :: ds, r1)
  | _ => Option.none

def matchBrokenNum : List Char → Option (List Char × List Char)
  | '-' :: rest =>
    match matchBrokenCore rest with
    | some (m, r) => some ('-' :: m, r)
    | Option.none => Option.none
  | t => matchBrokenCore t

/-- Model of `re.findall(r"-?\\d+(?:\\.\\d+)?", s)`: non-overlapping left-to-right
matches (fuel = input length; every match consumes at least two characters). -/
def brokenFindAux (fuel : ℕ) : List Char → List (List Char)
  | [] => []
  | c :: cs =>
    match fuel with
    | 0 => []
    | n + 1 =>
      match matchBrokenNum (c :: cs) with
      | some (m, rest) => m :: brokenFindAux n rest
      | Option.none => brokenFindAux n cs

def brokenFind (l : List Char) : List (List Char) := brokenFindAux l.length l

/-- Python `float(str)` on the strings produced by the broken `findall`:
optional sign, digits with an optional fractional part, nothing else.
(Exponents, `inf` and `nan` are irrelevant here: every string the code passes
to `float` contains a backslash, which every float grammar rejects.) -/
def pyFloatCore (l : List Char) : Option ℚ :=
  let p1 := takeDigits l
  match p1.2 with
  | [] => if p1.1.isEmpty then Option.none else some (digitsToNat p1.1)
  | '.' :: r2 =>
    let p2 := takeDigits r2
    if p2.2.isEmpty ∧ (¬ p1.1.isEmpty ∨ ¬ p2.1.isEmpty) then
      some ((digitsToNat p1.1 : ℚ) + (digitsToNat p2.1 : ℚ) / (10 : ℚ) ^ p2.1.length)
    else Option.none
  | _ => Option.none

def pyFloatLit (l : List Char) : Option ℚ :=
  match pyStrip l with
  | '-' :: r => (pyFloatCore r).map Neg.neg
  | '+' :: r => pyFloatCore r
  | r => pyFloatCore r

/-- A value as found in an extraction-service item: Python `None`, a number,
or a string. -/
inductive PyVal where
  | none
  | num (f : PyFloat)
  | str (s : String)
deriving DecidableEq

def PyVal.isNum : PyVal → Bool
  | .num _ => true
  | _ => false

/-- Model of `_parse_year` (report_generator.py:1795-1816).  The primary pattern
`(?:FY|CY)?\s*(20\d{2})` captures the leftmost `20dd` occurrence (the prefix
is optional, so a match can start at the year itself). -/
def scanYear4 : List Char → Option ℤ
  | c1 :: c2 :: c3 :: c4 :: rest =>
    if c1 = '2' ∧ c2 = '0' ∧ c3.isDigit ∧ c4.isDigit then
      some (2000 + 10 * ((c3.toNat : ℤ) - 48) + ((c4.toNat : ℤ) - 48))
    else scanYear4 (c2 :: c3 :: c4 :: rest)
  | _ => Option.none

/-- Fallback pattern `(?:FY|CY)\s*(\d{2})`. -/
def scanYearFY : List Char → Option ℤ
  | c1 :: c2 :: rest =>
    if (c1 = 'F' ∨ c1 = 'C') ∧ c2 = 'Y' then
      match (rest.dropWhile isPySpace) with
      | d1 :: d2 :: _ =>
        if d1.isDigit ∧ d2.isDigit then
          some (2000 + 10 * ((d1.toNat : ℤ) - 48) + ((d2.toNat : ℤ) - 48))
        else scanYearFY (c2 :: rest)
      | _ => scanYearFY (c2 :: rest)
    else scanYearFY (c2 :: rest)
  | _ => Option.none

def isWordChar (c : Char) : Bool := c.isAlphanum || c = '_'

/-- Word boundary before the two digits: start of string or a non-word
character. -/
def boundaryBefore (prev : Option Char) : Bool :=
  match prev with
  | Option.none => true
  | some p => ! isWordChar p

/-- After the two digits: optional spaces, one of `AEPFMB`, word boundary. -/
def suffixOk (rest : List Char) : Bool :=
  match rest.dropWhile isPySpace with
  | s :: r2 =>
    (s == 'A' || s == 'E' || s == 'P' || s == 'F' || s == 'M' || s == 'B')
      && (match r2 with | [] => true | n :: _ => ! isWordChar n)
  | [] => false

/-- Fallback pattern `\b(\d{2})\s*[AEPFMB]\b` (two digits at a word boundary,
optional spaces, one of the suffix letters, word boundary). -/
def scanYear2Suffix (prev : Option Char) : List Char → Option ℤ
  | d1 :: d2 :: rest =>
    if boundaryBefore prev && d1.isDigit && d2.isDigit && suffixOk rest then
      some (2000 + 10 * ((d1.toNat : ℤ) - 48) + ((d2.toNat : ℤ) - 48))
    else scanYear2Suffix (some d1) (d2 :: rest)
  | _ => Option.none

def parseYear (period : Option String) : Option ℤ :=
  match period with
  | Option.none => Option.none
  | some s =>
    let l := pyUpper (pyStrip s.data)
    match scanYear4 l with
    | some y => some y
    | Option.none =>
      match scanYearFY l with
      | some y => some y
      | Option.none => scanYear2Suffix Option.none l

/-- Model of `_unit_multiplier_from_unit` (report_generator.py:1403-1416).  The
character class `r"[\\s,$]"` removes literal backslashes, the letter `s`,
commas and dollar signs (not whitespace). -/
def brokenClassFilter (l : List Char) : List Char :=
  l.filter (fun c => ¬ (c = '\\' ∨ c = 's' ∨ c = ',' ∨ c = '$'))

def unitMultiplier (unit : Option String) : ℚ :=
  match unit with
  | Option.none => 1
  | some u =>
    let s := pyLower (pyStrip u.data)
    if s.isEmpty then 1
    else
      let sClean := brokenClassFilter s
      if containsSub ['b', 'i', 'l', 'l', 'i', 'o', 'n'] sClean ∨ sClean = ['b']
          ∨ sClean = ['b', 'n'] ∨ endsWithC ['b'] sClean then 1000000000
      else if containsSub ['m', 'i', 'l', 'l', 'i', 'o', 'n'] sClean ∨ sClean = ['m']
          ∨ sClean = ['m', 'm'] ∨ endsWithC ['m'] sClean then 1000000
      else if containsSub ['t', 'h', 'o', 'u', 's', 'a', 'n', 'd'] sClean ∨ sClean = ['k']
          ∨ endsWithC ['k'] sClean then 1000
      else 1

/-- Model of `_value_mentions_scale` (report_generator.py:1393-1400).  Only string
values reach this check in `_extract_series_by_year` (numeric values take the
direct branch); `None` returns `False`. -/
def valueMentionsScale (v : PyVal) : Bool :=
  match v with
  | .none => false
  | .num _ => false
  | .str s =>
    let sl := pyLower (pyStrip s.data)
    if sl.isEmpty then false
    else
      let sClean := brokenClassFilter sl
      containsSub ['b', 'i', 'l', 'l', 'i', 'o', 'n'] sl
        || containsSub ['m', 'i', 'l', 'l', 'i', 'o', 'n'] sl
        || containsSub ['t', 'h', 'o', 'u', 's', 'a', 'n', 'd'] sl
        || endsWithC ['b'] sClean || endsWithC ['m'] sClean || endsWithC ['k'] sClean

/-- Model of `_parse_amount` (report_generator.py:1345-1390).  Numeric inputs are
returned as floats unchanged (`float(value)`: NaN stays NaN).  For strings:
strip, handle parentheses and a leading minus, remove `$` and commas, detect a
scale word to set the multiplier and remove it with the (broken) substitution
regex, then collect number tokens with the broken `findall` regex — which can
only match strings containing a literal backslash, so a match (if any) makes
`float` raise and the `except` branch returns `None`. -/
def parseAmount (value : PyVal) (templateScale : ℚ) : Option PyFloat :=
  match value with
  | .none => Option.none
  | .num f => some f
  | .str s0 =>
    let l0 := pyStrip s0.data
    if l0.isEmpty ∨ l0 = ['-'] then Option.none
    else
      let p1 : Bool × List Char :=
        if l0.head? = some '(' ∧ l0.getLast? = some ')'
        then (true, pyStrip ((l0.drop 1).dropLast)) else (false, l0)
      let p2 : Bool × List Char :=
        if p1.2.head? = some '-' then (true, pyStrip (p1.2.drop 1)) else p1
      let neg := p2.1
      let s := p2.2
      let sClean0 := pyStrip (s.filter (fun c => ¬ (c = '$' ∨ c = ',')))
      let sL := pyLower s
      let p3 : ℚ × List Char :=
        if containsSub ['b', 'i', 'l', 'l', 'i', 'o', 'n'] sL ∨ endsWithC ['b'] sL then
          (1000000000,
            pyStrip (subAlt ['b', 'i', 'l', 'l', 'i', 'o', 'n']
              ['\\', 'b', 'b', '\\', 'b'] sClean0))
        else if containsSub ['m', 'i', 'l', 'l', 'i', 'o', 'n'] sL ∨ endsWithC ['m'] sL then
          (1000000,
            pyStrip (subAlt ['m', 'i', 'l', 'l', 'i', 'o', 'n']
              ['\\', 'b', 'm', '\\', 'b'] sClean0))
        else if containsSub ['t', 'h', 'o', 'u', 's', 'a', 'n', 'd'] sL
            ∨ endsWithC ['k'] sL then
          (1000,
            pyStrip (subAlt ['t', 'h', 'o', 'u', 's', 'a', 'n', 'd']
              ['\\', 'b', 'k', '\\', 'b'] sClean0))
        else (1, sClean0)
      let parts := brokenFind p3.2
      if parts.isEmpty then Option.none
      else
        match parts.mapM pyFloatLit with
        | Option.none => Option.none
        | some nums =>
          let numv : ℚ :=
            if nums.length = 1 then nums.headD 0 else nums.sum / (nums.length : ℚ)
          let out := (numv * p3.1) / templateScale
          some (.finite (if neg then -out else out))

/-- One item of an extraction-service series (`{period, value, unit}`). -/
structure Item where
  period : Option String
  value : PyVal
  unit : Option String

/-- Model of `_extract_series_by_year` (report_generator.py:1677-1705): parse the year,
take numeric values directly (scaled by the unit multiplier over the template
scale), parse textual values with `_parse_amount` (skipping the year on
failure, applying the unit multiplier when the text itself mentions no
scale), last write wins. -/
def extractStep (templateScale : ℚ) (out : PSeries) (it : Item) : PSeries :=
  match parseYear it.period with
  | Option.none => out
  | some y =>
    match it.value with
    | .num f => out.set y ((f.mulQ (unitMultiplier it.unit)).divQ templateScale)
    | v =>
      match parseAmount v templateScale with
      | Option.none => out
      | some val =>
        let val' :=
          if unitMultiplier it.unit ≠ 1 ∧ ¬ valueMentionsScale v
          then val.mulQ (unitMultiplier it.unit) else val
        out.set y val'

def extractSeries (items : List Item) (templateScale : ℚ) : PSeries :=
  items.foldl (extractStep templateScale) PSeries.empty

/-- The numeric value `_write_line` (report_generator.py:1844-1878) stores in
the cell of year `y`, if any: the series value, negated when `force_negative`
is set and the value is positive.  No finiteness check is performed. -/
def writeLineCell (values : PSeries) (forceNegative : Bool) (y : ℤ) : Option PyFloat :=
  match values y with
  | Option.none => Option.none
  | some v => some (if forceNegative ∧ v.isPos then v.neg else v)

/-- What a cell-writing path stores: the dash sentinel or a number. -/
inductive CellWrite where
  | dash
  | num (q : ℚ)
deriving DecidableEq

/-- The cell content `_write_fcf_model_to_excel` (report_generator.py:478-519)
stores for a given field and year: `-` when the year or the field value is
absent (`_safe_float` returned `None`), otherwise the numeric value. -/
def writeFcfCell (model : ℤ → Option YearModel) (field : YearModel → Option ℚ)
    (y : ℤ) : CellWrite :=
  match model y with
  | Option.none => .dash
  | some yd =>
    match field yd with
    | Option.none => .dash
    | some v => .num v

/-! ### Forecast projector

`_fill_future_projections` and `_prepare_tale_projections` work on Python
dicts of floats whose keys are enumerated and sorted; we model such a dict as
an association list `List (ℤ × ℝ)` (lookup takes the first matching key, an
assignment prepends and removes the old entry).  Real numbers are needed
because the trailing CAGR is a real root
(`(last/first) ** (1/years_diff) - 1`). -/

/-- A year-keyed Python dict of floats with key enumeration. -/
def SeriesR : Type := List (ℤ × ℝ)

instance : Coe (List (ℤ × ℝ)) SeriesR := ⟨id⟩

/-- Python `dict.get(y)`. -/
def SeriesR.get (s : SeriesR) (y : ℤ) : Option ℝ :=
  ((s : List (ℤ × ℝ)).find? (fun p => p.1 == y)).map (fun p => p.2)

/-- Python `y in dict`. -/
def SeriesR.contains (s : SeriesR) (y : ℤ) : Bool :=
  (s : List (ℤ × ℝ)).any (fun p => p.1 == y)

/-- Python `dict[y] = v`. -/
def SeriesR.set (s : SeriesR) (y : ℤ) (v : ℝ) : SeriesR :=
  (y, v) :: (s : List (ℤ × ℝ)).filter (fun p => ! (p.1 == y))

/-- Python `dict.keys()` (first occurrence wins, matching `get`). -/
def SeriesR.keys (s : SeriesR) : List ℤ :=
  ((s : List (ℤ × ℝ)).map (fun p => p.1)).dedup

/-- Python `sorted([y for y in d.keys() if y <= b])`. -/
def SeriesR.knownLe (s : SeriesR) (b : ℤ) : List ℤ :=
  List.insertionSort (· ≤ ·) (s.keys.filter (fun y => decide (y ≤ b)))

/-- Python `range(a, b)` over integers. -/
def intRange (a b : ℤ) : List ℤ :=
  (List.range (b - a).toNat).map (fun i : ℕ => a + (i : ℤ))

/-- The two projection modes of `_fill_future_projections`. -/
inductive Mode where
  | atar
  | management
deriving DecidableEq

/-- The revenue growth rate selected by `_fill_future_projections`
(report_generator.py:1539-1578): default `0.05`; with no known year `0.10` in
management mode; with at least two known years and positive endpoint values
over a positive span, the trailing CAGR over the last at-most-3 known years,
boosted/haircut and clamped per mode (management additionally floors a
negative raw trend to `0.02`). -/
noncomputable def projectedCagr (baseYear : ℤ) (revenue : SeriesR) (mode : Mode) : ℝ :=
  let known := revenue.knownLe baseYear
  if known.isEmpty then
    (match mode with | .management => 0.10 | .atar => 0.05)
  else if 2 ≤ known.length then
    let lastY := known.getLastD 0
    let lastV := (revenue.get lastY).getD 0
    let firstY := if 3 < known.length then known.getD (known.length - 3) 0 else known.headD 0
    let firstV := (revenue.get firstY).getD 0
    if 0 < firstV ∧ 0 < lastV ∧ 0 < lastY - firstY then
      let raw := (lastV / firstV) ^ ((1 : ℝ) / ((lastY - firstY : ℤ) : ℝ)) - 1
      match mode with
      | .management => if raw < 0 then 0.02 else max 0.02 (min 0.30 (raw * 1.1))
      | .atar => max (-0.10) (min 0.15 (raw * 0.9))
    else 0.05
  else 0.05

/-- The interior gap years the revenue extension fills first
(report_generator.py:1589): `range(last_rev_y + 1, base_year + 1)` when
`last_rev_y` is truthy, else nothing. -/
def revGapYears (baseYear : ℤ) (revenue : SeriesR) : List ℤ :=
  let known := revenue.knownLe baseYear
  let lastY := if known.isEmpty then baseYear else known.getLastD 0
  if lastY ≠ 0 then intRange (lastY + 1) (baseYear + 1) else []

/-- Gap-year body of the revenue extension (report_generator.py:1590-1594). -/
def revGapStep (cagr : ℝ) (acc : SeriesR × ℝ) (y : ℤ) : SeriesR × ℝ :=
  if acc.1.contains y then acc
  else (acc.1.set y (acc.2 * (1 + cagr)), acc.2 * (1 + cagr))

/-- Target-year body of the revenue extension
(report_generator.py:1596-1607). -/
noncomputable def revTargetStep (cagr : ℝ) (acc : SeriesR × ℝ) (y : ℤ) : SeriesR × ℝ :=
  if acc.1.contains y then (acc.1, (acc.1.get y).getD 0)
  else
    let prev := (acc.1.get (y - 1)).getD acc.2
    if prev ≠ 0 then (acc.1.set y (prev * (1 + cagr)), prev * (1 + cagr))
    else acc

/-- Section 1 of `_fill_future_projections` (report_generator.py:1538-1607):
extend revenue over the interior gap years and the five target years. -/
noncomputable def fillRevenue (baseYear : ℤ) (revenue : SeriesR) (mode : Mode) : SeriesR :=
  let known := revenue.knownLe baseYear
  let cagr := projectedCagr baseYear revenue mode
  let lastV : ℝ := if known.isEmpty then 0 else (revenue.get (known.getLastD 0)).getD 0
  let s1 := (revGapYears baseYear revenue).foldl (revGapStep cagr) (revenue, lastV)
  ((intRange (baseYear + 1) (baseYear + 6)).foldl (revTargetStep cagr) s1).1

/-- Fill body shared by the gross-profit and opex extensions: assign
`rev × margin` to a missing year when the (already extended) revenue is
present (report_generator.py:1631-1636 and 1657-1662). -/
def marginFillStep (margin : ℝ) (revExt : SeriesR) (g : SeriesR) (y : ℤ) : SeriesR :=
  if g.contains y then g
  else
    match revExt.get y with
    | some r => g.set y (r * margin)
    | Option.none => g

/-- Section 2 of `_fill_future_projections` (report_generator.py:1609-1636):
average (conservative) or maximum (optimistic) gross margin over the last
at-most-3 known years, applied to the extended revenue. -/
noncomputable def fillGrossProfit (baseYear : ℤ) (revExt gp : SeriesR) (mode : Mode) :
    SeriesR :=
  let knownGp := gp.knownLe baseYear
  let margins := (knownGp.drop (knownGp.length - 3)).foldr
    (fun y acc =>
      match revExt.get y, gp.get y with
      | some r, some g => if r ≠ 0 ∧ g ≠ 0 then (g / r) :: acc else acc
      | _, _ => acc) []
  let avgGm : ℝ :=
    if margins.isEmpty then 0.40
    else
      match mode with
      | .management => margins.foldl max (margins.headD 0)
      | .atar => margins.sum / (margins.length : ℝ)
  (intRange (baseYear + 1) (baseYear + 6)).foldl (marginFillStep avgGm revExt) gp

/-- Section 3 of `_fill_future_projections` (report_generator.py:1638-1662):
average |opex|/revenue over the last at-most-3 known years (management gets a
10% efficiency improvement), applied to the extended revenue. -/
noncomputable def fillOpex (baseYear : ℤ) (revExt opex : SeriesR) (mode : Mode) : SeriesR :=
  let knownOp := opex.knownLe baseYear
  let opMargins := (knownOp.drop (knownOp.length - 3)).foldr
    (fun y acc =>
      match revExt.get y, opex.get y with
      | some r, some o => if r ≠ 0 ∧ o ≠ 0 then (|o| / r) :: acc else acc
      | _, _ => acc) []
  let avgOp : ℝ :=
    if opMargins.isEmpty then 0.25
    else
      match mode with
      | .management => opMargins.sum / (opMargins.length : ℝ) * 0.9
      | .atar => opMargins.sum / (opMargins.length : ℝ)
  (intRange (baseYear + 1) (baseYear + 6)).foldl (marginFillStep avgOp revExt) opex

/-- Fill body of the EBITDA extension (report_generator.py:1667-1674):
`gross_profit − |opex|` for missing years when both are present. -/
def ebFillStep (gpExt opexExt : SeriesR) (e : SeriesR) (y : ℤ) : SeriesR :=
  if e.contains y then e
  else
    match gpExt.get y, opexExt.get y with
    | some g, some o => e.set y (g - |o|)
    | _, _ => e

/-- Section 4 of `_fill_future_projections`. -/
def fillEbitda (baseYear : ℤ) (gpExt opexExt ebitda : SeriesR) : SeriesR :=
  (intRange (baseYear + 1) (baseYear + 6)).foldl (ebFillStep gpExt opexExt) ebitda

/-- Model of `_fill_future_projections` (report_generator.py:1515-1674): extends the
four series in place for `base_year+1 .. base_year+5`, only filling gaps.
`operatingIncome` is accepted and ignored, as in the source. -/
noncomputable def fillFutureProjections (baseYear : ℤ)
    (revenue gp operatingIncome opex ebitda : SeriesR) (mode : Mode) :
    SeriesR × SeriesR × SeriesR × SeriesR :=
  let revExt := fillRevenue baseYear revenue mode
  let gpExt := fillGrossProfit baseYear revExt gp mode
  let opexExt := fillOpex baseYear revExt opex mode
  let ebExt := fillEbitda baseYear gpExt opexExt ebitda
  (revExt, gpExt, opexExt, ebExt)

/-- The three metric kinds of `_prepare_tale_projections`. -/
inductive TaleMetric where
  | capex
  | wc
  | oneTime
deriving DecidableEq

/-- Capex fill body (report_generator.py:1466-1479): a missing projection year
gets `−(revenue × pct)` when that scenario's revenue is truthy, else the last
known capex when one exists. -/
noncomputable def taleCapexStep (pct : ℝ) (lastCapex : Option ℝ) (rev : SeriesR) (d : SeriesR)
    (year : ℤ) : SeriesR :=
  if d.contains year then d
  else
    let rv := rev.get year
    if rv ≠ Option.none ∧ rv ≠ some 0 then d.set year (-(rv.getD 0 * pct))
    else
      match lastCapex with
      | some lc => d.set year lc
      | Option.none => d

/-- Working-capital fill body (report_generator.py:1486-1501): a missing
projection year gets `−20%` of that scenario's year-over-year revenue growth
when both revenues are truthy. -/
noncomputable def taleWcStep (rev : SeriesR) (d : SeriesR) (year : ℤ) : SeriesR :=
  if d.contains year then d
  else
    match rev.get (year - 1), rev.get year with
    | some pv, some cv =>
      if pv ≠ 0 ∧ cv ≠ 0 then d.set year (-((cv - pv) * 0.20)) else d
    | _, _ => d

/-- One-time-cost fill body (report_generator.py:1503-1510): missing
projection years default to `0`. -/
def taleOneTimeStep (d : SeriesR) (year : ℤ) : SeriesR :=
  if d.contains year then d else d.set year 0

/-- Model of `_prepare_tale_projections` (report_generator.py:1419-1512): start from
copies of the historical dict and fill the five projection years per metric
kind; the two scenarios are filled independently from their own revenue
series (the capex percentage and last known value are shared). -/
noncomputable def prepareTaleProjections (baseYear : ℤ) (historical : SeriesR)
    (revenueAtar revenueMgmt : SeriesR) (metricType : TaleMetric) : SeriesR × SeriesR :=
  let projectionYears := intRange (baseYear + 1) (baseYear + 6)
  match metricType with
  | .capex =>
    let histYears := List.insertionSort (· ≤ ·)
      (historical.keys.filter
        (fun y => decide (y ≤ baseYear ∧ ¬ historical.get y = some (0 : ℝ))))
    let p : ℝ × Option ℝ :=
      match histYears.getLast? with
      | some lastH =>
        let lastCapex := (historical.get lastH).getD 0
        let revAtY : Option ℝ :=
          if revenueAtar.get lastH ≠ Option.none ∧ revenueAtar.get lastH ≠ some 0
          then revenueAtar.get lastH else revenueMgmt.get lastH
        match revAtY with
        | some r =>
          if r ≠ 0 then (min (max (|lastCapex| / r) 0.02) 0.10, some lastCapex)
          else (0.04, some lastCapex)
        | Option.none => (0.04, some lastCapex)
      | Option.none => (0.04, Option.none)
    (projectionYears.foldl (taleCapexStep p.1 p.2 revenueAtar) historical,
     projectionYears.foldl (taleCapexStep p.1 p.2 revenueMgmt) historical)
  | .wc =>
    (projectionYears.foldl (taleWcStep revenueAtar) historical,
     projectionYears.foldl (taleWcStep revenueMgmt) historical)
  | .oneTime =>
    (projectionYears.foldl taleOneTimeStep historical,
     projectionYears.foldl taleOneTimeStep historical)

/-! ### Save-or-raise control flow of `generate_excel_report`

The per-sheet cell scans are abstracted to their outcomes: whether
`_detect_year_blocks` returned any block, whether `_detect_row_map` resolved
at least one row, and whether the sheet contains the "Assets" and
"Liabilities" texts.  The loop body (report_generator.py:90-298) then either
skips the sheet, writes only through the balance-sheet fallback
(lines 100-105), or writes unconditionally: when year blocks and a resolved
row map exist, every block role reaches a write — `actual`/`management`
blocks run the writing body directly (line 268), and `projection` blocks are
re-covered by the atar-blocks fallback (lines 211-221) whose loop also writes
(line 298), the three being the only roles `_infer_year_cell_role` and
`_build_year_block` produce. -/

/-- Per-sheet outcome of the structural scans. -/
structure SheetInfo where
  hasYearBlocks : Bool
  hasResolvedRow : Bool
  hasAssets : Bool
  hasLiabilities : Bool
deriving DecidableEq

/-- Whether the loop body sets `updated_any` on this sheet
(report_generator.py:94-105, 223-298); `bsData` is the truthiness of
`data.get("balance_sheet")`. -/
def sheetUpdates (bsData : Bool) (s : SheetInfo) : Bool :=
  if ! s.hasYearBlocks then false
  else if ! s.hasResolvedRow then s.hasAssets && s.hasLiabilities && bsData
  else true

/-- Outcome of `generate_excel_report` (report_generator.py:88,
359-363): raise `ValueError` when no sheet set `updated_any`, else save the
single output file and return its name. -/
def generateExcelReport (sheets : List SheetInfo) (bsData : Bool) (filename : String) :
    Except String String :=
  if sheets.any (sheetUpdates bsData) then Except.ok filename
  else Except.error "Could not locate target sheets/rows to populate in the template."

section WaterfallLemmas

variable (adjEbitda capex changeWc oneTime interest amortization fcfHist : PSeries)

lemma fcfYear_true_eq (prior : ℚ) (y : ℤ) :
    fcfYear adjEbitda capex changeWc oneTime interest amortization true fcfHist prior y
      = (actualEntry interest amortization fcfHist y, prior) := rfl

lemma fcfYear_false_eq (prior : ℚ) (y : ℤ) :
    fcfYear adjEbitda capex changeWc oneTime interest amortization false fcfHist prior y
      = ({ free_cash_flow := some (projFcfVal adjEbitda capex changeWc oneTime y)
           interest := some ((safeFloat (interest y)).getD 0)
           amortization := some ((safeFloat (amortization y)).getD 0)
           total_debt_service := some (projTotalDs interest amortization y)
           fcf_after_debt :=
             some (projFcfAfter adjEbitda capex changeWc oneTime interest amortization y)
           cash_avail_revolver :=
             some (projFcfAfter adjEbitda capex changeWc oneTime interest amortization y)
           revolver_draw :=
             some (projDraw adjEbitda capex changeWc oneTime interest amortization y)
           revolver_balance :=
             some (prior + projDraw adjEbitda capex changeWc oneTime interest amortization y)
           remaining_cash :=
             some (projRemaining adjEbitda capex changeWc oneTime interest amortization y) },
         prior + projDraw adjEbitda capex changeWc oneTime interest amortization y) := rfl

lemma projDraw_nonneg (y : ℤ) :
    0 ≤ projDraw adjEbitda capex changeWc oneTime interest amortization y := by
  unfold projDraw; split <;> simp [abs_nonneg]

lemma projRemaining_nonneg (y : ℤ) :
    0 ≤ projRemaining adjEbitda capex changeWc oneTime interest amortization y := by
  unfold projRemaining; split
  · exact le_refl 0
  · linarith [not_lt.mp (by assumption :
      ¬ projFcfAfter adjEbitda capex changeWc oneTime interest amortization y < 0)]

lemma fcfStep_fst_apply (b : Bool) (acc : (ℤ → Option YearModel) × ℚ) (a y : ℤ) :
    (fcfStep adjEbitda capex changeWc oneTime interest amortization b fcfHist acc a).1 y
      = if y = a
        then some (fcfYear adjEbitda capex changeWc oneTime interest amortization b fcfHist
          acc.2 a).1
        else acc.1 y := rfl

lemma fcfStep_snd (b : Bool) (acc : (ℤ → Option YearModel) × ℚ) (a : ℤ) :
    (fcfStep adjEbitda capex changeWc oneTime interest amortization b fcfHist acc a).2
      = (fcfYear adjEbitda capex changeWc oneTime interest amortization b fcfHist acc.2 a).2 :=
  rfl

lemma fcfYear_snd_ge (b : Bool) (prior : ℚ) (y : ℤ) :
    prior ≤ (fcfYear adjEbitda capex changeWc oneTime interest amortization b fcfHist
      prior y).2 := by
  cases b
  · rw [fcfYear_false_eq]
    exact le_add_of_nonneg_right
      (projDraw_nonneg adjEbitda capex changeWc oneTime interest amortization y)
  · rw [fcfYear_true_eq]

/-- Keys not in the iterated list are untouched by the fold. -/
lemma fcf_fold_not_mem (b : Bool) (L : List ℤ) (s : (ℤ → Option YearModel) × ℚ)
    (y : ℤ) (hy : y ∉ L) :
    (L.foldl (fcfStep adjEbitda capex changeWc oneTime interest amortization b fcfHist) s).1 y
      = s.1 y := by
  induction L generalizing s with
  | nil => rfl
  | cons a t ih =>
    simp only [List.foldl_cons]
    rw [ih _ (fun h => hy (List.mem_cons_of_mem a h)), fcfStep_fst_apply,
      if_neg (fun h => hy (by rw [h]; exact List.mem_cons_self a t))]

/-- The running prior never decreases along the fold. -/
lemma fcf_fold_snd_ge (b : Bool) (L : List ℤ) (s : (ℤ → Option YearModel) × ℚ) :
    s.2 ≤ (L.foldl (fcfStep adjEbitda capex changeWc oneTime interest amortization b fcfHist)
      s).2 := by
  induction L generalizing s with
  | nil => exact le_refl _
  | cons a t ih =>
    simp only [List.foldl_cons]
    have h1 : s.2
        ≤ (fcfStep adjEbitda capex changeWc oneTime interest amortization b fcfHist s a).2 := by
      rw [fcfStep_snd]
      exact fcfYear_snd_ge adjEbitda capex changeWc oneTime interest amortization fcfHist b s.2 a
    exact le_trans h1 (ih _)

/-- Every processed year gets an entry produced by `fcfYear` at some
nonnegative prior. -/
lemma fcf_fold_mem (b : Bool) (L : List ℤ) (s : (ℤ → Option YearModel) × ℚ)
    (hs : 0 ≤ s.2) (y : ℤ) (hy : y ∈ L) :
    ∃ p, 0 ≤ p ∧
      (L.foldl (fcfStep adjEbitda capex changeWc oneTime interest amortization b fcfHist)
        s).1 y
      = some (fcfYear adjEbitda capex changeWc oneTime interest amortization b fcfHist p y).1 := by
  induction L generalizing s with
  | nil => cases hy
  | cons a t ih =>
    simp only [List.foldl_cons]
    by_cases hyt : y ∈ t
    · have h1 : s.2
          ≤ (fcfStep adjEbitda capex changeWc oneTime interest amortization b fcfHist s a).2 := by
        rw [fcfStep_snd]
        exact fcfYear_snd_ge adjEbitda capex changeWc oneTime interest amortization fcfHist b s.2 a
      exact ih _ (le_trans hs h1) hyt
    · have hya : y = a := by
        rcases List.mem_cons.mp hy with h | h
        · exact h
        · exact absurd h hyt
      refine ⟨s.2, hs, ?_⟩
      rw [fcf_fold_not_mem adjEbitda capex changeWc oneTime interest amortization fcfHist b t
        _ y hyt, fcfStep_fst_apply, if_pos hya, hya]

/-- Membership lemma for `computeFcfModel`: each input year has an entry from `fcfYear`
at some nonnegative prior. -/
lemma computeFcfModel_mem (b : Bool) (years : List ℤ) (y : ℤ) (hy : y ∈ years) :
    ∃ p, 0 ≤ p ∧
      computeFcfModel years adjEbitda capex changeWc oneTime interest amortization b fcfHist y
      = some (fcfYear adjEbitda capex changeWc oneTime interest amortization b fcfHist p y).1 := by
  unfold computeFcfModel
  exact fcf_fold_mem adjEbitda capex changeWc oneTime interest amortization fcfHist b
    (List.insertionSort (· ≤ ·) years) (fun _ => none, 0) (le_refl 0) y
    ((List.perm_insertionSort (· ≤ ·) years).mem_iff.mpr hy)

lemma fcfYear_false_balance (p : ℚ) (y : ℤ) :
    ((fcfYear adjEbitda capex changeWc oneTime interest amortization false fcfHist p y).1
      ).revolver_balance
    = some ((fcfYear adjEbitda capex changeWc oneTime interest amortization false fcfHist
        p y).2) := rfl

/-- Invariant of the projection fold over a sorted, duplicate-free year list:
every produced entry carries a revolver balance between the starting and the
final prior, and balances are monotone in the year order. -/
lemma fcf_fold_proj_spec :
    ∀ (L : List ℤ), L.Sorted (· ≤ ·) → L.Nodup →
    ∀ (s : (ℤ → Option YearModel) × ℚ), 0 ≤ s.2 →
    (∀ y ∈ L, ∀ e,
      (L.foldl (fcfStep adjEbitda capex changeWc oneTime interest amortization false fcfHist)
        s).1 y = some e →
      ∃ b, e.revolver_balance = some b ∧ s.2 ≤ b ∧
        b ≤ (L.foldl (fcfStep adjEbitda capex changeWc oneTime interest amortization false
          fcfHist) s).2) ∧
    (∀ y1 ∈ L, ∀ y2 ∈ L, y1 ≤ y2 → ∀ e1 e2,
      (L.foldl (fcfStep adjEbitda capex changeWc oneTime interest amortization false fcfHist)
        s).1 y1 = some e1 →
      (L.foldl (fcfStep adjEbitda capex changeWc oneTime interest amortization false fcfHist)
        s).1 y2 = some e2 →
      ∀ b1 b2, e1.revolver_balance = some b1 → e2.revolver_balance = some b2 → b1 ≤ b2) := by
  intro L
  induction L with
  | nil =>
    intro _ _ s _
    exact ⟨fun y hy => absurd hy (List.not_mem_nil y),
           fun y1 hy1 => absurd hy1 (List.not_mem_nil y1)⟩
  | cons a t ih =>
    intro hs hn s h0
    obtain ⟨hle, hs'⟩ := List.sorted_cons.mp hs
    obtain ⟨hat, hn'⟩ := List.nodup_cons.mp hn
    simp only [List.foldl_cons]
    have hp1 : s.2
        ≤ (fcfStep adjEbitda capex changeWc oneTime interest amortization false fcfHist
          s a).2 := by
      rw [fcfStep_snd]
      exact fcfYear_snd_ge adjEbitda capex changeWc oneTime interest amortization fcfHist
        false s.2 a
    have h01 : 0 ≤ (fcfStep adjEbitda capex changeWc oneTime interest amortization false
        fcfHist s a).2 := le_trans h0 hp1
    obtain ⟨ihA, ihB⟩ := ih hs' hn' _ h01
    have haval : (t.foldl
        (fcfStep adjEbitda capex changeWc oneTime interest amortization false fcfHist)
        (fcfStep adjEbitda capex changeWc oneTime interest amortization false fcfHist s a)).1 a
        = some (fcfYear adjEbitda capex changeWc oneTime interest amortization false fcfHist
          s.2 a).1 := by
      rw [fcf_fold_not_mem adjEbitda capex changeWc oneTime interest amortization fcfHist
        false t _ a hat, fcfStep_fst_apply, if_pos rfl]
    have hsnd : (fcfStep adjEbitda capex changeWc oneTime interest amortization false fcfHist
        s a).2
        = (fcfYear adjEbitda capex changeWc oneTime interest amortization false fcfHist
          s.2 a).2 := rfl
    have htail : (fcfStep adjEbitda capex changeWc oneTime interest amortization false fcfHist
        s a).2
        ≤ (t.foldl
            (fcfStep adjEbitda capex changeWc oneTime interest amortization false fcfHist)
            (fcfStep adjEbitda capex changeWc oneTime interest amortization false fcfHist
              s a)).2 :=
      fcf_fold_snd_ge adjEbitda capex changeWc oneTime interest amortization fcfHist false t _
    constructor
    · intro y hy e he
      rcases List.mem_cons.mp hy with h | hyt
      · subst h
        rw [haval] at he
        refine ⟨(fcfYear adjEbitda capex changeWc oneTime interest amortization false fcfHist
          s.2 y).2, ?_, ?_, ?_⟩
        · rw [← Option.some.inj he]
          exact fcfYear_false_balance adjEbitda capex changeWc oneTime interest amortization
            fcfHist s.2 y
        · exact fcfYear_snd_ge adjEbitda capex changeWc oneTime interest amortization fcfHist
            false s.2 y
        · rw [← hsnd]; exact htail
      · obtain ⟨b, hb, hb1, hb2⟩ := ihA y hyt e he
        exact ⟨b, hb, le_trans hp1 hb1, hb2⟩
    · intro y1 hy1 y2 hy2 h12 e1 e2 he1 he2 b1 b2 hb1 hb2
      rcases List.mem_cons.mp hy1 with h1 | h1t
      · subst h1
        rcases List.mem_cons.mp hy2 with h2 | h2t
        · subst h2
          have hee : e1 = e2 := Option.some.inj (he1.symm.trans he2)
          have hb1' : e2.revolver_balance = some b1 := by rw [← hee]; exact hb1
          exact le_of_eq (Option.some.inj (hb1'.symm.trans hb2))
        · -- y1 = a, y2 ∈ t : the balance of a is the prior the tail fold starts from
          rw [haval] at he1
          have hb1' : b1 = (fcfYear adjEbitda capex changeWc oneTime interest amortization
              false fcfHist s.2 y1).2 := by
            have := fcfYear_false_balance adjEbitda capex changeWc oneTime interest amortization
              fcfHist s.2 y1
            rw [Option.some.inj he1] at this
            rw [this] at hb1
            exact (Option.some.inj hb1).symm
          obtain ⟨b, hb, hbge, _⟩ := ihA y2 h2t e2 he2
          rw [hb] at hb2
          rw [← Option.some.inj hb2, hb1']
          rw [hsnd] at hbge
          exact hbge
      · rcases List.mem_cons.mp hy2 with h2 | h2t
        · subst h2
          have : y2 ≤ y1 := hle y1 h1t
          have hy1a : y1 = y2 := le_antisymm h12 this
          rw [hy1a] at h1t
          exact absurd h1t hat
        · exact ihB y1 h1t y2 h2t h12 e1 e2 he1 he2 b1 b2 hb1 hb2

end WaterfallLemmas

/-- C2: for every projected year `y` (`is_actual = False`) on which the four
operand series hold finite values, the waterfall's `free_cash_flow[y]` equals
`adjusted_ebitda[y] − |capex[y]| − change_in_working_capital[y] −
|one_time_cost[y]|` (the working-capital change is subtracted signed, capex
and one-time cost by absolute value). -/
theorem C2_projected_fcf_identity (years : List ℤ)
    (adjEbitda capex changeWc oneTime interest amortization fcfHist : PSeries)
    (y : ℤ) (hy : y ∈ years) (ae cx wcv otv : ℚ)
    (ha : adjEbitda y = some (.finite ae)) (hc : capex y = some (.finite cx))
    (hw : changeWc y = some (.finite wcv)) (ho : oneTime y = some (.finite otv)) :
    ∃ e, computeFcfModel years adjEbitda capex changeWc oneTime interest amortization false
        fcfHist y = some e ∧
      e.free_cash_flow = some (ae - |cx| - wcv - |otv|) := by
  obtain ⟨p, _, he⟩ := computeFcfModel_mem adjEbitda capex changeWc oneTime interest
    amortization fcfHist false years y hy
  refine ⟨_, he, ?_⟩
  rw [fcfYear_false_eq]
  show some (projFcfVal adjEbitda capex changeWc oneTime y) = _
  unfold projFcfVal
  rw [ha, hc, hw, ho]
  rfl

/-- Witness for C2 at a concrete input. -/
theorem C2_projected_fcf_identity_witness :
    ∃ e, computeFcfModel [2024] (PSeries.single 2024 (.finite 10))
        (PSeries.single 2024 (.finite 2)) (PSeries.single 2024 (.finite 3))
        (PSeries.single 2024 (.finite 1)) PSeries.empty PSeries.empty false
        PSeries.empty 2024 = some e ∧
      e.free_cash_flow = some ((10 : ℚ) - |(2 : ℚ)| - 3 - |(1 : ℚ)|) :=
  C2_projected_fcf_identity [2024] (PSeries.single 2024 (.finite 10))
    (PSeries.single 2024 (.finite 2)) (PSeries.single 2024 (.finite 3))
    (PSeries.single 2024 (.finite 1)) PSeries.empty PSeries.empty PSeries.empty
    2024 (by decide) 10 2 3 1 rfl rfl rfl rfl

/-- C3: in the per-scenario waterfall over projected years (ascending order,
prior initialised to `0`): if `fcf_after_debt_service[y] < 0` then
`revolver_draw[y] = −fcf_after_debt_service[y]` and `remaining_cash[y] = 0`,
otherwise `revolver_draw[y] = 0` and `remaining_cash[y] =
fcf_after_debt_service[y]`; `revolver_balance[y]` equals a nonnegative prior
plus the draw; draw and remaining cash are nonnegative; and the revolver
balance is non-decreasing from one projected year to the next. -/
theorem C3_revolver_waterfall (years : List ℤ)
    (adjEbitda capex changeWc oneTime interest amortization fcfHist : PSeries)
    (hnd : years.Nodup) (y : ℤ) (hy : y ∈ years) :
    ∃ e, computeFcfModel years adjEbitda capex changeWc oneTime interest amortization false
        fcfHist y = some e ∧
      (∀ f, e.fcf_after_debt = some f →
        (f < 0 → e.revolver_draw = some (-f) ∧ e.remaining_cash = some 0) ∧
        (0 ≤ f → e.revolver_draw = some 0 ∧ e.remaining_cash = some f)) ∧
      (∃ d, 0 ≤ d ∧ e.revolver_draw = some d ∧
        ∃ p, 0 ≤ p ∧ e.revolver_balance = some (p + d)) ∧
      (∃ r, 0 ≤ r ∧ e.remaining_cash = some r) ∧
      (∀ y' ∈ years, y ≤ y' →
        ∀ e', computeFcfModel years adjEbitda capex changeWc oneTime interest amortization
          false fcfHist y' = some e' →
        ∀ b b', e.revolver_balance = some b → e'.revolver_balance = some b' → b ≤ b') := by
  obtain ⟨p, hp, he⟩ := computeFcfModel_mem adjEbitda capex changeWc oneTime interest
    amortization fcfHist false years y hy
  have hE := fcfYear_false_eq adjEbitda capex changeWc oneTime interest amortization fcfHist p y
  refine ⟨_, he, ?_, ?_, ?_, ?_⟩
  · intro f hf
    have hfa : ((fcfYear adjEbitda capex changeWc oneTime interest amortization false fcfHist
        p y).1).fcf_after_debt
        = some (projFcfAfter adjEbitda capex changeWc oneTime interest amortization y) := by
      rw [hE]
    have hfv : f = projFcfAfter adjEbitda capex changeWc oneTime interest amortization y :=
      (Option.some.inj (hfa.symm.trans hf)).symm
    subst hfv
    constructor
    · intro hneg
      constructor
      · rw [hE]
        show some (projDraw adjEbitda capex changeWc oneTime interest amortization y) = _
        unfold projDraw
        rw [if_pos hneg, abs_of_neg hneg]
      · rw [hE]
        show some (projRemaining adjEbitda capex changeWc oneTime interest amortization y) = _
        unfold projRemaining
        rw [if_pos hneg]
    · intro hpos
      constructor
      · rw [hE]
        show some (projDraw adjEbitda capex changeWc oneTime interest amortization y) = _
        unfold projDraw
        rw [if_neg (not_lt.mpr hpos)]
      · rw [hE]
        show some (projRemaining adjEbitda capex changeWc oneTime interest amortization y) = _
        unfold projRemaining
        rw [if_neg (not_lt.mpr hpos)]
  · refine ⟨projDraw adjEbitda capex changeWc oneTime interest amortization y,
      projDraw_nonneg adjEbitda capex changeWc oneTime interest amortization y, ?_, p, hp, ?_⟩
    · rw [hE]
    · rw [hE]
  · refine ⟨projRemaining adjEbitda capex changeWc oneTime interest amortization y,
      projRemaining_nonneg adjEbitda capex changeWc oneTime interest amortization y, ?_⟩
    rw [hE]
  · intro y' hy' hle' e' he' b b' hb hb'
    have hLs : (List.insertionSort (· ≤ ·) years).Sorted (· ≤ ·) :=
      List.sorted_insertionSort (· ≤ ·) years
    have hLn : (List.insertionSort (· ≤ ·) years).Nodup :=
      ((List.perm_insertionSort (· ≤ ·) years).nodup_iff).mpr hnd
    have hspec := fcf_fold_proj_spec adjEbitda capex changeWc oneTime interest amortization
      fcfHist (List.insertionSort (· ≤ ·) years) hLs hLn (fun _ => none, 0) (le_refl 0)
    exact hspec.2 y ((List.perm_insertionSort (· ≤ ·) years).mem_iff.mpr hy)
      y' ((List.perm_insertionSort (· ≤ ·) years).mem_iff.mpr hy') hle'
      _ e' he he' b b' hb hb'

/-- Witness for C3 at a concrete input (2024 has a cash shortfall, 2025 a
surplus). -/
theorem C3_revolver_waterfall_witness :
    ∃ e, computeFcfModel [2024, 2025]
        (fun y => if y = 2024 then some (.finite (-5)) else
          if y = 2025 then some (.finite 7) else none)
        PSeries.empty PSeries.empty PSeries.empty PSeries.empty PSeries.empty false
        PSeries.empty 2024 = some e ∧
      (∀ f, e.fcf_after_debt = some f →
        (f < 0 → e.revolver_draw = some (-f) ∧ e.remaining_cash = some 0) ∧
        (0 ≤ f → e.revolver_draw = some 0 ∧ e.remaining_cash = some f)) ∧
      (∃ d, 0 ≤ d ∧ e.revolver_draw = some d ∧
        ∃ p, 0 ≤ p ∧ e.revolver_balance = some (p + d)) ∧
      (∃ r, 0 ≤ r ∧ e.remaining_cash = some r) ∧
      (∀ y' ∈ [2024, 2025], (2024 : ℤ) ≤ y' →
        ∀ e', computeFcfModel [2024, 2025]
          (fun y => if y = 2024 then some (.finite (-5)) else
            if y = 2025 then some (.finite 7) else none)
          PSeries.empty PSeries.empty PSeries.empty PSeries.empty PSeries.empty
          false PSeries.empty y' = some e' →
        ∀ b b', e.revolver_balance = some b → e'.revolver_balance = some b' → b ≤ b') :=
  C3_revolver_waterfall [2024, 2025]
    (fun y => if y = 2024 then some (.finite (-5)) else
      if y = 2025 then some (.finite 7) else none)
    PSeries.empty PSeries.empty PSeries.empty PSeries.empty PSeries.empty PSeries.empty
    (by decide) 2024 (by decide)

/-- C5 (amended): for every actual year, `free_cash_flow` is the supplied
historical value (never recomputed), `total_debt_service` is
`interest + amortization` as soon as at least one of the two is known (the
missing one treated as `0`) and absent only when both are unknown,
`fcf_after_debt_service` is `fcf − total_ds` when both are known and `fcf`
when only the FCF is known, and the three revolver fields are absent. -/
theorem C5_actual_year_semantics (years : List ℤ)
    (adjEbitda capex changeWc oneTime interest amortization fcfHist : PSeries)
    (y : ℤ) (hy : y ∈ years) :
    ∃ e, computeFcfModel years adjEbitda capex changeWc oneTime interest amortization true
        fcfHist y = some e ∧
      e.free_cash_flow = safeFloat (fcfHist y) ∧
      e.total_debt_service =
        (if (safeFloat (interest y)).isSome ∨ (safeFloat (amortization y)).isSome
         then some ((safeFloat (interest y)).getD 0 + (safeFloat (amortization y)).getD 0)
         else none) ∧
      e.fcf_after_debt =
        (match safeFloat (fcfHist y), e.total_debt_service with
         | some f, some t => some (f - t)
         | some f, none => some f
         | none, _ => none) ∧
      e.revolver_draw = none ∧ e.revolver_balance = none ∧ e.remaining_cash = none := by
  obtain ⟨p, _, he⟩ := computeFcfModel_mem adjEbitda capex changeWc oneTime interest
    amortization fcfHist true years y hy
  exact ⟨_, he, rfl, rfl, rfl, rfl, rfl, rfl⟩

/-- Witness for C5 at a concrete input. -/
theorem C5_actual_year_semantics_witness :
    ∃ e, computeFcfModel [2023] PSeries.empty PSeries.empty PSeries.empty PSeries.empty
        (PSeries.single 2023 (.finite 5)) PSeries.empty true
        (PSeries.single 2023 (.finite 10)) 2023 = some e ∧
      e.free_cash_flow = safeFloat (PSeries.single 2023 (.finite 10) 2023) ∧
      e.total_debt_service =
        (if (safeFloat (PSeries.single 2023 (.finite 5) 2023)).isSome
            ∨ (safeFloat (PSeries.empty 2023)).isSome
         then some ((safeFloat (PSeries.single 2023 (.finite 5) 2023)).getD 0
            + (safeFloat (PSeries.empty 2023)).getD 0)
         else none) ∧
      e.fcf_after_debt =
        (match safeFloat (PSeries.single 2023 (.finite 10) 2023), e.total_debt_service with
         | some f, some t => some (f - t)
         | some f, none => some f
         | none, _ => none) ∧
      e.revolver_draw = none ∧ e.revolver_balance = none ∧ e.remaining_cash = none :=
  C5_actual_year_semantics [2023] PSeries.empty PSeries.empty PSeries.empty PSeries.empty
    (PSeries.single 2023 (.finite 5)) PSeries.empty (PSeries.single 2023 (.finite 10))
    2023 (by decide)

/-- Counterexample to C5 as stated: with `interest[2023] = 5` known but
`amortization` absent, the claim predicts `total_debt_service` absent and
`fcf_after_debt_service = 10`; the code yields `total_debt_service = 5` and
`fcf_after_debt_service = 5`. -/
theorem C5_counterexample_total_ds :
    computeFcfModel [2023] PSeries.empty PSeries.empty PSeries.empty PSeries.empty
        (PSeries.single 2023 (.finite 5)) PSeries.empty true
        (PSeries.single 2023 (.finite 10)) 2023
      = some { free_cash_flow := some 10, interest := some 5, amortization := none,
               total_debt_service := some 5, fcf_after_debt := some 5,
               cash_avail_revolver := none, revolver_draw := none,
               revolver_balance := none, remaining_cash := none } := by
  obtain ⟨p, _, he⟩ := computeFcfModel_mem PSeries.empty PSeries.empty PSeries.empty
    PSeries.empty (PSeries.single 2023 (.finite 5)) PSeries.empty
    (PSeries.single 2023 (.finite 10)) true [2023] 2023 (by decide)
  rw [he, fcfYear_true_eq]
  simp [actualEntry, PSeries.single, PSeries.empty, safeFloat]
  norm_num

/-- Counterexample to C7 as stated: zero substitution is not limited to the
debt-service inputs.  With `capex`, working capital and one-time cost absent
for projected year 2024, the waterfall behaves exactly as if they were `0`
(same model), and still produces `free_cash_flow = 10` rather than leaving it
absent. -/
theorem C7_counterexample_capex_zero_subst :
    computeFcfModel [2024] (PSeries.single 2024 (.finite 10)) PSeries.empty PSeries.empty
        PSeries.empty PSeries.empty PSeries.empty false PSeries.empty 2024
      = computeFcfModel [2024] (PSeries.single 2024 (.finite 10))
          (PSeries.single 2024 (.finite 0)) PSeries.empty PSeries.empty PSeries.empty
          PSeries.empty false PSeries.empty 2024
    ∧ (computeFcfModel [2024] (PSeries.single 2024 (.finite 10)) PSeries.empty PSeries.empty
        PSeries.empty PSeries.empty PSeries.empty false PSeries.empty 2024).map
        (fun e => e.free_cash_flow) = some (some 10) := by
  constructor
  · simp [computeFcfModel, fcfStep, fcfYear, PSeries.single, PSeries.empty, safeFloat,
      List.insertionSort, List.orderedInsert]
  · simp [computeFcfModel, fcfStep, fcfYear, PSeries.single, PSeries.empty, safeFloat,
      List.insertionSort, List.orderedInsert]

lemma PSeries.set_apply (s : PSeries) (y : ℤ) (v : PyFloat) (z : ℤ) :
    s.set y v z = if z = y then some v else s z := rfl

/-- An item whose year parses to `y` but whose value is neither numeric nor
parsable leaves the series unchanged. -/
lemma extractStep_skip (scale : ℚ) (acc : PSeries) (it : Item) (y : ℤ)
    (hp : parseYear it.period = some y)
    (hnum : it.value.isNum = false) (hpa : parseAmount it.value scale = Option.none) :
    extractStep scale acc it = acc := by
  unfold extractStep
  rw [hp]
  cases hv : it.value with
  | num f => rw [hv] at hnum; exact absurd hnum (by simp [PyVal.isNum])
  | none =>
    rw [hv] at hpa
    show (match parseAmount PyVal.none scale with
      | Option.none => acc
      | some val =>
        acc.set y (if unitMultiplier it.unit ≠ 1 ∧ ¬ valueMentionsScale PyVal.none
          then val.mulQ (unitMultiplier it.unit) else val)) = acc
    rw [hpa]
  | str s =>
    rw [hv] at hpa
    show (match parseAmount (PyVal.str s) scale with
      | Option.none => acc
      | some val =>
        acc.set y (if unitMultiplier it.unit ≠ 1 ∧ ¬ valueMentionsScale (PyVal.str s)
          then val.mulQ (unitMultiplier it.unit) else val)) = acc
    rw [hpa]

/-- An item never touches a year different from the one its period parses
to. -/
lemma extractStep_apply_ne (scale : ℚ) (acc : PSeries) (it : Item) (z : ℤ)
    (hz : ∀ y, parseYear it.period = some y → z ≠ y) :
    extractStep scale acc it z = acc z := by
  unfold extractStep
  cases hp : parseYear it.period with
  | none => rfl
  | some y =>
    have hne : z ≠ y := hz y hp
    cases hv : it.value with
    | num f =>
      show (if z = y then some ((f.mulQ (unitMultiplier it.unit)).divQ scale) else acc z)
        = acc z
      exact if_neg hne
    | none =>
      show (match parseAmount PyVal.none scale with
        | Option.none => acc
        | some val =>
          acc.set y (if unitMultiplier it.unit ≠ 1 ∧ ¬ valueMentionsScale PyVal.none
            then val.mulQ (unitMultiplier it.unit) else val)) z = acc z
      cases hpa : parseAmount PyVal.none scale with
      | none => rfl
      | some val =>
        show (if z = y then _ else acc z) = acc z
        exact if_neg hne
    | str s =>
      show (match parseAmount (PyVal.str s) scale with
        | Option.none => acc
        | some val =>
          acc.set y (if unitMultiplier it.unit ≠ 1 ∧ ¬ valueMentionsScale (PyVal.str s)
            then val.mulQ (unitMultiplier it.unit) else val)) z = acc z
      cases hpa : parseAmount (PyVal.str s) scale with
      | none => rfl
      | some val =>
        show (if z = y then _ else acc z) = acc z
        exact if_neg hne

/-- A year for which every matching item is non-numeric and unparsable stays
absent from the extracted series. -/
lemma extract_fold_none (scale : ℚ) (items : List Item) (acc : PSeries) (y : ℤ)
    (hacc : acc y = Option.none)
    (h : ∀ it ∈ items, parseYear it.period = some y →
      it.value.isNum = false ∧ parseAmount it.value scale = Option.none) :
    (items.foldl (extractStep scale) acc) y = Option.none := by
  induction items generalizing acc with
  | nil => exact hacc
  | cons it rest ih =>
    simp only [List.foldl_cons]
    refine ih (extractStep scale acc it) ?_
      (fun it' h1 h2 => h it' (List.mem_cons_of_mem _ h1) h2)
    by_cases hy : parseYear it.period = some y
    · obtain ⟨hnum, hpa⟩ := h it (List.mem_cons_self _ _) hy
      rw [extractStep_skip scale acc it y hy hnum hpa]
      exact hacc
    · rw [extractStep_apply_ne scale acc it y
        (fun y' hp' heq => hy (by rw [heq]; exact hp'))]
      exact hacc

lemma SeriesR.get_set_self (s : SeriesR) (y : ℤ) (v : ℝ) : (s.set y v).get y = some v := by
  unfold SeriesR.get SeriesR.set
  rw [List.find?_cons_of_pos _ (by simp)]
  rfl

lemma find?_filter_ne (l : List (ℤ × ℝ)) (y z : ℤ) (h : z ≠ y) :
    (l.filter (fun p => ! (p.1 == y))).find? (fun p => p.1 == z)
      = l.find? (fun p => p.1 == z) := by
  induction l with
  | nil => rfl
  | cons a t ih =>
    by_cases ha : a.1 = y
    · have h2 : (a.1 == z) = false := by
        rw [beq_eq_false_iff_ne]
        rw [ha]
        exact fun hh => h hh.symm
      rw [List.filter_cons_of_neg (by simp [ha]), List.find?_cons_of_neg _ (by rw [h2]; simp),
        ih]
    · rw [List.filter_cons_of_pos (by simp [ha])]
      by_cases hz : a.1 = z
      · rw [List.find?_cons_of_pos _ (by simp [hz]), List.find?_cons_of_pos _ (by simp [hz])]
      · rw [List.find?_cons_of_neg _ (by simp [hz]), List.find?_cons_of_neg _ (by simp [hz]),
          ih]

lemma SeriesR.get_set_ne (s : SeriesR) (y : ℤ) (v : ℝ) (z : ℤ) (h : z ≠ y) :
    (s.set y v).get z = s.get z := by
  unfold SeriesR.get SeriesR.set
  rw [List.find?_cons_of_neg _ (by simp; exact fun hh => h hh.symm),
    find?_filter_ne (s : List (ℤ × ℝ)) y z h]

lemma SeriesR.contains_iff (s : SeriesR) (y : ℤ) :
    s.contains y = true ↔ (s.get y).isSome := by
  unfold SeriesR.contains SeriesR.get
  rw [List.any_eq_true]
  constructor
  · intro h
    have h2 : ((s : List (ℤ × ℝ)).find? (fun p => p.1 == y)).isSome :=
      List.find?_isSome.mpr h
    cases hf : (s : List (ℤ × ℝ)).find? (fun p => p.1 == y) with
    | none => rw [hf] at h2; cases h2
    | some w => rfl
  · intro h
    cases hf : (s : List (ℤ × ℝ)).find? (fun p => p.1 == y) with
    | none => rw [hf] at h; exact Bool.noConfusion h
    | some w => exact List.find?_isSome.mp (by rw [hf]; rfl)

/-- Generic frame property for the plain-series fill folds: a step that only
ever assigns the iterated year, and only when it is absent, preserves present
entries and creates entries only for absent years of the iterated list. -/
lemma serFold_frame (step : SeriesR → ℤ → SeriesR)
    (hstep : ∀ acc y', step acc y' = acc ∨
      (acc.contains y' = false ∧ ∃ v, step acc y' = acc.set y' v))
    (L : List ℤ) (s : SeriesR) (y : ℤ) :
    ((s.get y).isSome → (L.foldl step s).get y = s.get y) ∧
    ((L.foldl step s).get y ≠ s.get y → s.get y = Option.none ∧ y ∈ L) := by
  induction L generalizing s with
  | nil => exact ⟨fun _ => rfl, fun h => absurd rfl h⟩
  | cons a t ih =>
    simp only [List.foldl_cons]
    constructor
    · intro hs
      rcases hstep s a with h | ⟨hc, v, hv⟩
      · rw [h]
        exact (ih s).1 hs
      · have hay : a ≠ y := by
          intro hh
          subst hh
          have := (SeriesR.contains_iff s a).mpr hs
          rw [hc] at this
          cases this
        have hset : (s.set a v).get y = s.get y :=
          SeriesR.get_set_ne s a v y (fun hh => hay hh.symm)
        rw [hv]
        have := (ih (s.set a v)).1 (by rw [hset]; exact hs)
        rw [this, hset]
    · intro hne
      rcases hstep s a with h | ⟨hc, v, hv⟩
      · rw [h] at hne
        obtain ⟨h1, h2⟩ := (ih s).2 hne
        exact ⟨h1, List.mem_cons_of_mem a h2⟩
      · by_cases hay : a = y
        · subst hay
          refine ⟨?_, List.mem_cons_self a t⟩
          cases hg : s.get a with
          | none => rfl
          | some w =>
            have := (SeriesR.contains_iff s a).mpr (by rw [hg]; rfl)
            rw [hc] at this
            cases this
        · have hset : (s.set a v).get y = s.get y :=
            SeriesR.get_set_ne s a v y (fun hh => hay hh.symm)
          rw [hv] at hne
          have hne' : (t.foldl step (s.set a v)).get y ≠ (s.set a v).get y := by
            rw [hset]
            exact hne
          obtain ⟨h1, h2⟩ := (ih (s.set a v)).2 hne'
          rw [hset] at h1
          exact ⟨h1, List.mem_cons_of_mem a h2⟩

/-- Same frame property for the revenue folds, whose accumulator also carries
the running value. -/
lemma pairFold_frame (step : SeriesR × ℝ → ℤ → SeriesR × ℝ)
    (hstep : ∀ acc y', (step acc y').1 = acc.1 ∨
      (acc.1.contains y' = false ∧ ∃ v, (step acc y').1 = acc.1.set y' v))
    (L : List ℤ) (s : SeriesR × ℝ) (y : ℤ) :
    ((s.1.get y).isSome → (L.foldl step s).1.get y = s.1.get y) ∧
    ((L.foldl step s).1.get y ≠ s.1.get y → s.1.get y = Option.none ∧ y ∈ L) := by
  induction L generalizing s with
  | nil => exact ⟨fun _ => rfl, fun h => absurd rfl h⟩
  | cons a t ih =>
    simp only [List.foldl_cons]
    constructor
    · intro hs
      rcases hstep s a with h | ⟨hc, v, hv⟩
      · have := (ih (step s a)).1 (by rw [h]; exact hs)
        rw [this, h]
      · have hay : a ≠ y := by
          intro hh
          subst hh
          have := (SeriesR.contains_iff s.1 a).mpr hs
          rw [hc] at this
          cases this
        have hset : ((step s a).1).get y = s.1.get y := by
          rw [hv]
          exact SeriesR.get_set_ne s.1 a v y (fun hh => hay hh.symm)
        have := (ih (step s a)).1 (by rw [hset]; exact hs)
        rw [this, hset]
    · intro hne
      by_cases heq : (step s a).1.get y = s.1.get y
      · have hne' : (t.foldl step (step s a)).1.get y ≠ (step s a).1.get y := by
          rw [heq]
          exact hne
        obtain ⟨h1, h2⟩ := (ih (step s a)).2 hne'
        rw [heq] at h1
        exact ⟨h1, List.mem_cons_of_mem a h2⟩
      · rcases hstep s a with h | ⟨hc, v, hv⟩
        · rw [h] at heq
          exact absurd rfl heq
        · have hay : a = y := by
            by_contra hay
            rw [hv] at heq
            exact heq (SeriesR.get_set_ne s.1 a v y (fun hh => hay hh.symm))
          subst hay
          refine ⟨?_, List.mem_cons_self a t⟩
          cases hg : s.1.get a with
          | none => rfl
          | some w =>
            have := (SeriesR.contains_iff s.1 a).mpr (by rw [hg]; rfl)
            rw [hc] at this
            cases this

lemma bool_not_true_eq_false {b : Bool} (h : ¬ b = true) : b = false := by
  cases b
  · rfl
  · exact absurd rfl h

lemma revGapStep_frame (cagr : ℝ) : ∀ acc y', (revGapStep cagr acc y').1 = acc.1 ∨
    (acc.1.contains y' = false ∧ ∃ v, (revGapStep cagr acc y').1 = acc.1.set y' v) := by
  intro acc y'
  unfold revGapStep
  by_cases hc : acc.1.contains y' = true
  · rw [if_pos hc]
    exact Or.inl rfl
  · rw [if_neg hc]
    exact Or.inr ⟨bool_not_true_eq_false hc, _, rfl⟩

lemma revTargetStep_frame (cagr : ℝ) : ∀ acc y', (revTargetStep cagr acc y').1 = acc.1 ∨
    (acc.1.contains y' = false ∧ ∃ v, (revTargetStep cagr acc y').1 = acc.1.set y' v) := by
  intro acc y'
  unfold revTargetStep
  by_cases hc : acc.1.contains y' = true
  · rw [if_pos hc]
    exact Or.inl rfl
  · rw [if_neg hc]
    by_cases hp : ((acc.1.get (y' - 1)).getD acc.2) ≠ 0
    · rw [if_pos hp]
      exact Or.inr ⟨bool_not_true_eq_false hc, _, rfl⟩
    · rw [if_neg hp]
      exact Or.inl rfl

lemma marginFillStep_frame (m : ℝ) (re : SeriesR) : ∀ acc y',
    marginFillStep m re acc y' = acc ∨
      (acc.contains y' = false ∧ ∃ v, marginFillStep m re acc y' = acc.set y' v) := by
  intro acc y'
  unfold marginFillStep
  by_cases hc : acc.contains y' = true
  · rw [if_pos hc]
    exact Or.inl rfl
  · rw [if_neg hc]
    cases hr : re.get y' with
    | none => exact Or.inl rfl
    | some r => exact Or.inr ⟨bool_not_true_eq_false hc, _, rfl⟩

lemma ebFillStep_frame (g o : SeriesR) : ∀ acc y',
    ebFillStep g o acc y' = acc ∨
      (acc.contains y' = false ∧ ∃ v, ebFillStep g o acc y' = acc.set y' v) := by
  intro acc y'
  unfold ebFillStep
  by_cases hc : acc.contains y' = true
  · rw [if_pos hc]
    exact Or.inl rfl
  · rw [if_neg hc]
    cases hg : g.get y' with
    | none => exact Or.inl rfl
    | some gv =>
      cases ho : o.get y' with
      | none => exact Or.inl rfl
      | some ov => exact Or.inr ⟨bool_not_true_eq_false hc, _, rfl⟩

lemma taleCapexStep_frame (pct : ℝ) (lc : Option ℝ) (rev : SeriesR) : ∀ acc y',
    taleCapexStep pct lc rev acc y' = acc ∨
      (acc.contains y' = false ∧ ∃ v, taleCapexStep pct lc rev acc y' = acc.set y' v) := by
  intro acc y'
  unfold taleCapexStep
  by_cases hc : acc.contains y' = true
  · rw [if_pos hc]
    exact Or.inl rfl
  · rw [if_neg hc]
    by_cases hr : rev.get y' ≠ Option.none ∧ rev.get y' ≠ some 0
    · rw [if_pos hr]
      exact Or.inr ⟨bool_not_true_eq_false hc, _, rfl⟩
    · rw [if_neg hr]
      cases lc with
      | none => exact Or.inl rfl
      | some lcv => exact Or.inr ⟨bool_not_true_eq_false hc, _, rfl⟩

lemma taleWcStep_frame (rev : SeriesR) : ∀ acc y',
    taleWcStep rev acc y' = acc ∨
      (acc.contains y' = false ∧ ∃ v, taleWcStep rev acc y' = acc.set y' v) := by
  intro acc y'
  unfold taleWcStep
  by_cases hc : acc.contains y' = true
  · rw [if_pos hc]
    exact Or.inl rfl
  · rw [if_neg hc]
    cases hp : rev.get (y' - 1) with
    | none => exact Or.inl rfl
    | some pv =>
      cases hc2 : rev.get y' with
      | none => exact Or.inl rfl
      | some cv =>
        by_cases hz : pv ≠ 0 ∧ cv ≠ 0
        · refine Or.inr ⟨bool_not_true_eq_false hc, -((cv - pv) * 0.20), ?_⟩
          show (if pv ≠ 0 ∧ cv ≠ 0 then acc.set y' (-((cv - pv) * 0.20)) else acc) = _
          rw [if_pos hz]
        · refine Or.inl ?_
          show (if pv ≠ 0 ∧ cv ≠ 0 then acc.set y' (-((cv - pv) * 0.20)) else acc) = acc
          rw [if_neg hz]

lemma taleOneTimeStep_frame : ∀ (acc : SeriesR) (y' : ℤ),
    taleOneTimeStep acc y' = acc ∨
      (acc.contains y' = false ∧ ∃ v, taleOneTimeStep acc y' = acc.set y' v) := by
  intro acc y'
  unfold taleOneTimeStep
  by_cases hc : acc.contains y' = true
  · rw [if_pos hc]
    exact Or.inl rfl
  · rw [if_neg hc]
    exact Or.inr ⟨bool_not_true_eq_false hc, _, rfl⟩

lemma mem_intRange {y a b : ℤ} : y ∈ intRange a b ↔ a ≤ y ∧ y < b := by
  unfold intRange
  constructor
  · intro h
    obtain ⟨i, hi, heq⟩ := List.mem_map.mp h
    have hi' := List.mem_range.mp hi
    have heq' : a + (i : ℤ) = y := heq
    omega
  · intro h
    refine List.mem_map.mpr ⟨(y - a).toNat, List.mem_range.mpr (by omega), ?_⟩
    show a + (((y - a).toNat : ℕ) : ℤ) = y
    omega

/-- Frame property of the revenue extension: the gap fold then the target
fold. -/
lemma fillRevenue_frame (baseYear : ℤ) (revenue : SeriesR) (mode : Mode) (y : ℤ) :
    ((revenue.get y).isSome → (fillRevenue baseYear revenue mode).get y = revenue.get y) ∧
    ((fillRevenue baseYear revenue mode).get y ≠ revenue.get y →
      revenue.get y = Option.none ∧
        (y ∈ revGapYears baseYear revenue ∨
          y ∈ intRange (baseYear + 1) (baseYear + 6))) := by
  unfold fillRevenue
  set cagr := projectedCagr baseYear revenue mode with hcagr
  set lastV : ℝ := if (revenue.knownLe baseYear).isEmpty then 0
    else (revenue.get ((revenue.knownLe baseYear).getLastD 0)).getD 0 with hlastV
  have hg := pairFold_frame (revGapStep cagr) (revGapStep_frame cagr)
    (revGapYears baseYear revenue) (revenue, lastV) y
  have ht := pairFold_frame (revTargetStep cagr) (revTargetStep_frame cagr)
    (intRange (baseYear + 1) (baseYear + 6))
    ((revGapYears baseYear revenue).foldl (revGapStep cagr) (revenue, lastV)) y
  constructor
  · intro hs
    have h1 := hg.1 hs
    have h2 := ht.1 (by rw [h1]; exact hs)
    rw [h2, h1]
  · intro hne
    by_cases heq :
        ((revGapYears baseYear revenue).foldl (revGapStep cagr) (revenue, lastV)).1.get y
          = revenue.get y
    · obtain ⟨h1, h2⟩ := ht.2 (by
        intro hh
        exact hne (by rw [hh, heq]))
      rw [heq] at h1
      exact ⟨h1, Or.inr h2⟩
    · obtain ⟨h1, h2⟩ := hg.2 heq
      exact ⟨h1, Or.inl h2⟩

lemma fillGrossProfit_frame (baseYear : ℤ) (revExt gp : SeriesR) (mode : Mode) (y : ℤ) :
    ((gp.get y).isSome → (fillGrossProfit baseYear revExt gp mode).get y = gp.get y) ∧
    ((fillGrossProfit baseYear revExt gp mode).get y ≠ gp.get y →
      gp.get y = Option.none ∧ y ∈ intRange (baseYear + 1) (baseYear + 6)) := by
  unfold fillGrossProfit
  exact serFold_frame _ (marginFillStep_frame _ _) _ _ _

lemma fillOpex_frame (baseYear : ℤ) (revExt opex : SeriesR) (mode : Mode) (y : ℤ) :
    ((opex.get y).isSome → (fillOpex baseYear revExt opex mode).get y = opex.get y) ∧
    ((fillOpex baseYear revExt opex mode).get y ≠ opex.get y →
      opex.get y = Option.none ∧ y ∈ intRange (baseYear + 1) (baseYear + 6)) := by
  unfold fillOpex
  exact serFold_frame _ (marginFillStep_frame _ _) _ _ _

lemma fillEbitda_frame (baseYear : ℤ) (gpExt opexExt ebitda : SeriesR) (y : ℤ) :
    ((ebitda.get y).isSome →
      (fillEbitda baseYear gpExt opexExt ebitda).get y = ebitda.get y) ∧
    ((fillEbitda baseYear gpExt opexExt ebitda).get y ≠ ebitda.get y →
      ebitda.get y = Option.none ∧ y ∈ intRange (baseYear + 1) (baseYear + 6)) := by
  unfold fillEbitda
  exact serFold_frame _ (ebFillStep_frame _ _) _ _ _

/-- Frame property of `_prepare_tale_projections`, for both returned
scenarios and each metric kind. -/
lemma prepareTale_frame (baseYear : ℤ) (historical revA revM : SeriesR)
    (mt : TaleMetric) (y : ℤ) :
    ((historical.get y).isSome →
      (prepareTaleProjections baseYear historical revA revM mt).1.get y = historical.get y ∧
      (prepareTaleProjections baseYear historical revA revM mt).2.get y = historical.get y) ∧
    ((prepareTaleProjections baseYear historical revA revM mt).1.get y ≠ historical.get y →
      historical.get y = Option.none ∧ y ∈ intRange (baseYear + 1) (baseYear + 6)) ∧
    ((prepareTaleProjections baseYear historical revA revM mt).2.get y ≠ historical.get y →
      historical.get y = Option.none ∧ y ∈ intRange (baseYear + 1) (baseYear + 6)) := by
  cases mt with
  | capex =>
    unfold prepareTaleProjections
    refine ⟨fun hs => ⟨?_, ?_⟩, ?_, ?_⟩
    · exact (serFold_frame _ (taleCapexStep_frame _ _ _) _ _ _).1 hs
    · exact (serFold_frame _ (taleCapexStep_frame _ _ _) _ _ _).1 hs
    · exact (serFold_frame _ (taleCapexStep_frame _ _ _) _ _ _).2
    · exact (serFold_frame _ (taleCapexStep_frame _ _ _) _ _ _).2
  | wc =>
    unfold prepareTaleProjections
    refine ⟨fun hs => ⟨?_, ?_⟩, ?_, ?_⟩
    · exact (serFold_frame _ (taleWcStep_frame _) _ _ _).1 hs
    · exact (serFold_frame _ (taleWcStep_frame _) _ _ _).1 hs
    · exact (serFold_frame _ (taleWcStep_frame _) _ _ _).2
    · exact (serFold_frame _ (taleWcStep_frame _) _ _ _).2
  | oneTime =>
    unfold prepareTaleProjections
    refine ⟨fun hs => ⟨?_, ?_⟩, ?_, ?_⟩
    · exact (serFold_frame _ taleOneTimeStep_frame _ _ _).1 hs
    · exact (serFold_frame _ taleOneTimeStep_frame _ _ _).1 hs
    · exact (serFold_frame _ taleOneTimeStep_frame _ _ _).2
    · exact (serFold_frame _ taleOneTimeStep_frame _ _ _).2

/-- C6: the claim says `"$12.5 million"` under template scale `1000`
normalizes to `12500`.  The code's number-extraction regex
`r"-?\\d+(?:\\.\\d+)?"` (written with doubled backslashes inside a raw
string) matches a literal backslash followed by literal `d`s, never digits, so
`_parse_amount` returns `None` for the text and the extraction omits the
year entirely. -/
theorem C6_textual_amount_parse_fails :
    parseAmount (.str "$12.5 million") 1000 = Option.none ∧
    extractSeries [⟨some "2023", .str "$12.5 million", Option.none⟩] 1000 2023
      = Option.none := by
  constructor
  · decide
  · decide

/-- C7 (amended): absent or unparsable input entries leave their year absent
from the extracted series (never a substituted zero); zero substitution
happens only inside the waterfall simulator, but there — in the projected
branch — it applies to all operands (adjusted EBITDA, capex, working-capital
change, one-time cost, interest and amortization), not only the debt-service
inputs. -/
theorem C7_missing_values_semantics :
    (∀ (items : List Item) (scale : ℚ) (y : ℤ),
      (∀ it ∈ items, parseYear it.period = some y →
        it.value.isNum = false ∧ parseAmount it.value scale = Option.none) →
      extractSeries items scale y = Option.none) ∧
    (∀ (years : List ℤ)
      (adjEbitda capex changeWc oneTime interest amortization fcfHist : PSeries) (y : ℤ),
      y ∈ years →
      ∃ e, computeFcfModel years adjEbitda capex changeWc oneTime interest amortization false
          fcfHist y = some e ∧
        e.free_cash_flow = some ((safeFloat (adjEbitda y)).getD 0
          - |(safeFloat (capex y)).getD 0| - (safeFloat (changeWc y)).getD 0
          - |(safeFloat (oneTime y)).getD 0|) ∧
        e.total_debt_service = some ((safeFloat (interest y)).getD 0
          + (safeFloat (amortization y)).getD 0)) := by
  constructor
  · intro items scale y h
    exact extract_fold_none scale items PSeries.empty y rfl h
  · intro years adjEbitda capex changeWc oneTime interest amortization fcfHist y hy
    obtain ⟨p, _, he⟩ := computeFcfModel_mem adjEbitda capex changeWc oneTime interest
      amortization fcfHist false years y hy
    refine ⟨_, he, ?_, ?_⟩
    · rw [fcfYear_false_eq]
      rfl
    · rw [fcfYear_false_eq]
      rfl

/-- Witness for C7 at concrete inputs: an unparsable text leaves 2023 absent,
and a projected year with only adjusted EBITDA present still gets both fields
computed (with zeros substituted). -/
theorem C7_missing_values_semantics_witness :
    extractSeries [⟨some "2023", .str "abc", Option.none⟩] 1000 2023 = Option.none ∧
    (∃ e, computeFcfModel [2024] (PSeries.single 2024 (.finite 10)) PSeries.empty
        PSeries.empty PSeries.empty PSeries.empty PSeries.empty false PSeries.empty 2024
        = some e ∧
      e.free_cash_flow = some ((safeFloat (PSeries.single 2024 (.finite 10) 2024)).getD 0
        - |(safeFloat (PSeries.empty 2024)).getD 0| - (safeFloat (PSeries.empty 2024)).getD 0
        - |(safeFloat (PSeries.empty 2024)).getD 0|) ∧
      e.total_debt_service = some ((safeFloat (PSeries.empty 2024)).getD 0
        + (safeFloat (PSeries.empty 2024)).getD 0)) :=
  ⟨C7_missing_values_semantics.1 [⟨some "2023", .str "abc", Option.none⟩] 1000 2023
      (by decide),
   C7_missing_values_semantics.2 [2024] (PSeries.single 2024 (.finite 10)) PSeries.empty
      PSeries.empty PSeries.empty PSeries.empty PSeries.empty PSeries.empty 2024 (by decide)⟩

lemma writeFcfCell_none (model : ℤ → Option YearModel) (field : YearModel → Option ℚ)
    (y : ℤ) (hm : model y = Option.none) : writeFcfCell model field y = .dash := by
  unfold writeFcfCell
  rw [hm]

lemma writeFcfCell_field_none (model : ℤ → Option YearModel) (field : YearModel → Option ℚ)
    (y : ℤ) (yd : YearModel) (hm : model y = some yd) (hf : field yd = Option.none) :
    writeFcfCell model field y = .dash := by
  unfold writeFcfCell
  rw [hm]
  show (match field yd with | Option.none => CellWrite.dash | some v => CellWrite.num v)
    = CellWrite.dash
  rw [hf]

lemma writeFcfCell_field_some (model : ℤ → Option YearModel) (field : YearModel → Option ℚ)
    (y : ℤ) (yd : YearModel) (v : ℚ) (hm : model y = some yd) (hf : field yd = some v) :
    writeFcfCell model field y = .num v := by
  unfold writeFcfCell
  rw [hm]
  show (match field yd with | Option.none => CellWrite.dash | some v => CellWrite.num v)
    = CellWrite.num v
  rw [hf]

lemma writeLineCell_some (values : PSeries) (fn : Bool) (y : ℤ) (v : PyFloat)
    (hv : values y = some v) :
    writeLineCell values fn y = some (if fn ∧ v.isPos then v.neg else v) := by
  unfold writeLineCell
  rw [hv]

/-- C9 (amended): the FCF-model writing path stores the dash sentinel whenever
the year or the field value is absent and stores a number only when the field
holds one, while `_write_line` performs no finiteness check at all: it stores
the series value as-is (up to the sign flip), so a non-finite value reaching a
series is written into the cell. -/
theorem C9_cell_write_semantics :
    (∀ (model : ℤ → Option YearModel) (field : YearModel → Option ℚ) (y : ℤ),
      (writeFcfCell model field y = .dash ∨ ∃ q, writeFcfCell model field y = .num q) ∧
      (∀ q, writeFcfCell model field y = .num q →
        ∃ yd, model y = some yd ∧ field yd = some q)) ∧
    (∀ (values : PSeries) (fn : Bool) (y : ℤ) (v : PyFloat), values y = some v →
      writeLineCell values fn y = some (if fn ∧ v.isPos then v.neg else v)) := by
  constructor
  · intro model field y
    constructor
    · cases hm : model y with
      | none => exact Or.inl (writeFcfCell_none model field y hm)
      | some yd =>
        cases hf : field yd with
        | none => exact Or.inl (writeFcfCell_field_none model field y yd hm hf)
        | some v => exact Or.inr ⟨v, writeFcfCell_field_some model field y yd v hm hf⟩
    · intro q hq
      cases hm : model y with
      | none => rw [writeFcfCell_none model field y hm] at hq; cases hq
      | some yd =>
        cases hf : field yd with
        | none => rw [writeFcfCell_field_none model field y yd hm hf] at hq; cases hq
        | some v =>
          rw [writeFcfCell_field_some model field y yd v hm hf] at hq
          exact ⟨yd, rfl, by rw [hf, CellWrite.num.inj hq]⟩
  · intro values fn y v hv
    exact writeLineCell_some values fn y v hv

/-- Witness for C9 at concrete inputs. -/
theorem C9_cell_write_semantics_witness :
    ((writeFcfCell (fun _ => Option.none) (fun e => e.free_cash_flow) 2023 = .dash
        ∨ ∃ q, writeFcfCell (fun _ => Option.none) (fun e => e.free_cash_flow) 2023 = .num q)
      ∧ (∀ q, writeFcfCell (fun _ => Option.none) (fun e => e.free_cash_flow) 2023 = .num q →
        ∃ yd, (fun _ => Option.none : ℤ → Option YearModel) 2023 = some yd
          ∧ yd.free_cash_flow = some q)) ∧
    writeLineCell (PSeries.single 2023 .inf) false 2023
      = some (if false ∧ PyFloat.inf.isPos then PyFloat.inf.neg else .inf) :=
  ⟨C9_cell_write_semantics.1 (fun _ => Option.none) (fun e => e.free_cash_flow) 2023,
   C9_cell_write_semantics.2 (PSeries.single 2023 .inf) false 2023 .inf rfl⟩

/-- Counterexample to C9 as stated: a NaN supplied as a numeric input value
passes through `_extract_series_by_year` and is written into the cell by
`_write_line` — a non-finite number reaches the spreadsheet. -/
theorem C9_counterexample_nan_written :
    writeLineCell (extractSeries [⟨some "2023", .num .nan, Option.none⟩] 1000) false 2023
      = some PyFloat.nan ∧ PyFloat.nan.isFinite = false := by
  constructor
  · decide
  · decide

lemma isEmpty_false_of_two_le {l : List ℤ} (h2 : 2 ≤ l.length) : l.isEmpty = false := by
  cases l with
  | nil => simp at h2
  | cons a t => rfl

lemma not_isEmpty_true_of_two_le {l : List ℤ} (h2 : 2 ≤ l.length) : ¬ l.isEmpty = true := by
  rw [isEmpty_false_of_two_le h2]
  exact Bool.false_ne_true

/-- Branch characterization of `projectedCagr` when at least two known years
exist and the positivity guard holds. -/
lemma projectedCagr_of_guard (baseYear : ℤ) (revenue : SeriesR) (mode : Mode)
    (lastY firstY : ℤ) (lastV firstV : ℝ)
    (h2 : 2 ≤ (revenue.knownLe baseYear).length)
    (hlast : (revenue.knownLe baseYear).getLastD 0 = lastY)
    (hfirst : (if 3 < (revenue.knownLe baseYear).length
       then (revenue.knownLe baseYear).getD ((revenue.knownLe baseYear).length - 3) 0
       else (revenue.knownLe baseYear).headD 0) = firstY)
    (hlv : (revenue.get lastY).getD 0 = lastV)
    (hfv : (revenue.get firstY).getD 0 = firstV)
    (hfpos : 0 < firstV) (hlpos : 0 < lastV) (hd : 0 < lastY - firstY) :
    projectedCagr baseYear revenue mode
      = (match mode with
         | Mode.management =>
           if (lastV / firstV) ^ ((1 : ℝ) / ((lastY - firstY : ℤ) : ℝ)) - 1 < 0 then 0.02
           else max 0.02 (min 0.30
             (((lastV / firstV) ^ ((1 : ℝ) / ((lastY - firstY : ℤ) : ℝ)) - 1) * 1.1))
         | Mode.atar =>
           max (-0.10) (min 0.15
             (((lastV / firstV) ^ ((1 : ℝ) / ((lastY - firstY : ℤ) : ℝ)) - 1) * 0.9))) := by
  subst hlast
  subst hfirst
  subst hlv
  subst hfv
  simp only [projectedCagr]
  rw [if_neg (not_isEmpty_true_of_two_le h2), if_pos h2, if_pos ⟨hfpos, hlpos, hd⟩]

/-- C4 (amended): the projected growth rate is the trailing CAGR over the
last at-most-3 known years, haircut (×0.9) and clamped to `[-10%, +15%]` in
conservative mode, boosted (×1.1) and clamped to `[+2%, +30%]` in optimistic
mode with any negative raw CAGR floored to `+2%`; with no known revenue point
the rate defaults to 5% (conservative) and 10% (optimistic); with exactly one
known point it defaults to 5% in BOTH modes (the 10% optimistic default
applies only to the empty case); in all cases the rate stays within the
stated clamp bounds. -/
theorem C4_growth_rate_clamped (baseYear : ℤ) (revenue : SeriesR) :
    (-0.10 ≤ projectedCagr baseYear revenue .atar
      ∧ projectedCagr baseYear revenue .atar ≤ 0.15) ∧
    (0.02 ≤ projectedCagr baseYear revenue .management
      ∧ projectedCagr baseYear revenue .management ≤ 0.30) ∧
    ((revenue.knownLe baseYear).isEmpty = true →
      projectedCagr baseYear revenue .atar = 0.05
        ∧ projectedCagr baseYear revenue .management = 0.10) ∧
    ((revenue.knownLe baseYear).length = 1 →
      projectedCagr baseYear revenue .atar = 0.05
        ∧ projectedCagr baseYear revenue .management = 0.05) ∧
    (∀ (lastV firstV : ℝ) (lastY firstY : ℤ),
      2 ≤ (revenue.knownLe baseYear).length →
      (revenue.knownLe baseYear).getLastD 0 = lastY →
      (if 3 < (revenue.knownLe baseYear).length
       then (revenue.knownLe baseYear).getD ((revenue.knownLe baseYear).length - 3) 0
       else (revenue.knownLe baseYear).headD 0) = firstY →
      (revenue.get lastY).getD 0 = lastV →
      (revenue.get firstY).getD 0 = firstV →
      0 < firstV → 0 < lastV → 0 < lastY - firstY →
      (projectedCagr baseYear revenue .atar
         = max (-0.10) (min 0.15
             (((lastV / firstV) ^ ((1 : ℝ) / ((lastY - firstY : ℤ) : ℝ)) - 1) * 0.9)) ∧
       ((lastV / firstV) ^ ((1 : ℝ) / ((lastY - firstY : ℤ) : ℝ)) - 1 < 0 →
         projectedCagr baseYear revenue .management = 0.02) ∧
       (0 ≤ (lastV / firstV) ^ ((1 : ℝ) / ((lastY - firstY : ℤ) : ℝ)) - 1 →
         projectedCagr baseYear revenue .management
           = max 0.02 (min 0.30
               (((lastV / firstV) ^ ((1 : ℝ) / ((lastY - firstY : ℤ) : ℝ)) - 1) * 1.1)))))
    := by
  refine ⟨?_, ?_, ?_, ?_, ?_⟩
  · simp only [projectedCagr]
    split_ifs <;>
      first
        | exact ⟨le_max_left _ _, max_le (by norm_num) (min_le_left _ _)⟩
        | constructor <;> norm_num
  · simp only [projectedCagr]
    split_ifs <;>
      first
        | exact ⟨le_max_left _ _, max_le (by norm_num) (min_le_left _ _)⟩
        | constructor <;> norm_num
  · intro hE
    constructor <;> simp [projectedCagr, hE]
  · intro h1
    have hne : (revenue.knownLe baseYear).isEmpty = false := by
      cases hk : revenue.knownLe baseYear with
      | nil => rw [hk] at h1; simp at h1
      | cons a t => rfl
    have h2 : ¬ 2 ≤ (revenue.knownLe baseYear).length := by
      rw [h1]
      norm_num
    constructor <;> simp [projectedCagr, hne, h2]
  · intro lastV firstV lastY firstY h2 hlast hfirst hlv hfv hfpos hlpos hd
    refine ⟨?_, ?_, ?_⟩
    · rw [projectedCagr_of_guard baseYear revenue .atar lastY firstY lastV firstV
        h2 hlast hfirst hlv hfv hfpos hlpos hd]
    · intro hneg
      rw [projectedCagr_of_guard baseYear revenue .management lastY firstY lastV firstV
        h2 hlast hfirst hlv hfv hfpos hlpos hd]
      show (if (lastV / firstV) ^ ((1 : ℝ) / ((lastY - firstY : ℤ) : ℝ)) - 1 < 0 then
        (0.02 : ℝ) else _) = 0.02
      rw [if_pos hneg]
    · intro hpos
      rw [projectedCagr_of_guard baseYear revenue .management lastY firstY lastV firstV
        h2 hlast hfirst hlv hfv hfpos hlpos hd]
      show (if (lastV / firstV) ^ ((1 : ℝ) / ((lastY - firstY : ℤ) : ℝ)) - 1 < 0 then
        (0.02 : ℝ) else _) = _
      rw [if_neg (not_lt.mpr hpos)]

/-- Witness for C4 at a concrete two-point revenue history. -/
theorem C4_growth_rate_clamped_witness :
    (-0.10 ≤ projectedCagr 2023 ([((2022 : ℤ), (100 : ℝ)), (2023, 110)] : SeriesR) .atar
      ∧ projectedCagr 2023 ([((2022 : ℤ), (100 : ℝ)), (2023, 110)] : SeriesR) .atar ≤ 0.15) ∧
    projectedCagr 2023 ([((2022 : ℤ), (100 : ℝ)), (2023, 110)] : SeriesR) .atar
      = max (-0.10) (min 0.15
          ((((110 : ℝ) / 100) ^ ((1 : ℝ) / (((2023 : ℤ) - 2022 : ℤ) : ℝ)) - 1) * 0.9)) :=
  ⟨(C4_growth_rate_clamped 2023 ([((2022 : ℤ), (100 : ℝ)), (2023, 110)] : SeriesR)).1,
   ((C4_growth_rate_clamped 2023 ([((2022 : ℤ), (100 : ℝ)), (2023, 110)] : SeriesR)).2.2.2.2
     110 100 2023 2022 (by decide) (by decide) (by decide) rfl rfl (by norm_num)
     (by norm_num) (by decide)).1⟩

/-- Counterexample to C4 as stated: with exactly one known revenue point the
claim says the optimistic rate defaults to 10%; the code leaves the initial
default of 5% (the 10% branch is reached only when no known point exists at
all). -/
theorem C4_counterexample_one_point_management :
    projectedCagr 2023 ([((2023 : ℤ), (100 : ℝ))] : SeriesR) .management = 0.05
      ∧ (0.05 : ℝ) ≠ 0.10 := by
  constructor
  · have h1 : (SeriesR.knownLe ([((2023 : ℤ), (100 : ℝ))] : SeriesR) 2023).length = 1 := by
      decide
    have hne : (SeriesR.knownLe ([((2023 : ℤ), (100 : ℝ))] : SeriesR) 2023).isEmpty
        = false := by decide
    have h2 : ¬ 2 ≤ (SeriesR.knownLe ([((2023 : ℤ), (100 : ℝ))] : SeriesR) 2023).length := by
      rw [h1]
      norm_num
    simp [projectedCagr, hne, h2]
  · norm_num

/-- C1 (amended): when the extraction supplies a single projection set, the
report generator copies the same series into both scenarios (lines 132-138)
and `_fill_future_projections` only fills gaps, so for every forecast year
already present in the supplied revenue and EBITDA series the Conservative
(ATAR) and Optimistic (Management) scenarios keep the supplied value
unchanged and are numerically identical — no 5-10% reduction is applied. -/
theorem C1_single_projection_identical (baseYear : ℤ)
    (revenue gp oi opex ebitda : SeriesR) (y : ℤ)
    (hy1 : baseYear + 1 ≤ y) (hy2 : y ≤ baseYear + 5)
    (hr : (revenue.get y).isSome) (he : (ebitda.get y).isSome) :
    (fillFutureProjections baseYear revenue gp oi opex ebitda .atar).1.get y
        = revenue.get y ∧
    (fillFutureProjections baseYear revenue gp oi opex ebitda .management).1.get y
        = revenue.get y ∧
    (fillFutureProjections baseYear revenue gp oi opex ebitda .atar).2.2.2.get y
        = ebitda.get y ∧
    (fillFutureProjections baseYear revenue gp oi opex ebitda .management).2.2.2.get y
        = ebitda.get y :=
  ⟨(fillRevenue_frame baseYear revenue .atar y).1 hr,
   (fillRevenue_frame baseYear revenue .management y).1 hr,
   (fillEbitda_frame baseYear _ _ ebitda y).1 he,
   (fillEbitda_frame baseYear _ _ ebitda y).1 he⟩

/-- Witness for C1 at a concrete input. -/
theorem C1_single_projection_identical_witness :
    (fillFutureProjections 2023
        ([((2023 : ℤ), (100 : ℝ)), (2024, 110)] : SeriesR) ([] : SeriesR) ([] : SeriesR)
        ([] : SeriesR) ([((2024 : ℤ), (20 : ℝ))] : SeriesR) .atar).1.get 2024
      = SeriesR.get ([((2023 : ℤ), (100 : ℝ)), (2024, 110)] : SeriesR) 2024 ∧
    (fillFutureProjections 2023
        ([((2023 : ℤ), (100 : ℝ)), (2024, 110)] : SeriesR) ([] : SeriesR) ([] : SeriesR)
        ([] : SeriesR) ([((2024 : ℤ), (20 : ℝ))] : SeriesR) .management).1.get 2024
      = SeriesR.get ([((2023 : ℤ), (100 : ℝ)), (2024, 110)] : SeriesR) 2024 ∧
    (fillFutureProjections 2023
        ([((2023 : ℤ), (100 : ℝ)), (2024, 110)] : SeriesR) ([] : SeriesR) ([] : SeriesR)
        ([] : SeriesR) ([((2024 : ℤ), (20 : ℝ))] : SeriesR) .atar).2.2.2.get 2024
      = SeriesR.get ([((2024 : ℤ), (20 : ℝ))] : SeriesR) 2024 ∧
    (fillFutureProjections 2023
        ([((2023 : ℤ), (100 : ℝ)), (2024, 110)] : SeriesR) ([] : SeriesR) ([] : SeriesR)
        ([] : SeriesR) ([((2024 : ℤ), (20 : ℝ))] : SeriesR) .management).2.2.2.get 2024
      = SeriesR.get ([((2024 : ℤ), (20 : ℝ))] : SeriesR) 2024 :=
  C1_single_projection_identical 2023
    ([((2023 : ℤ), (100 : ℝ)), (2024, 110)] : SeriesR) ([] : SeriesR) ([] : SeriesR)
    ([] : SeriesR) ([((2024 : ℤ), (20 : ℝ))] : SeriesR) 2024
    (by norm_num) (by norm_num) rfl rfl

/-- Counterexample to C1 as stated: with a single supplied projection set
(revenue and EBITDA given for 2024-2028) the two scenarios are numerically
identical at the shared forecast year 2024 — the claim says they must never
be identical and that Conservative must be a 5-10% reduction. -/
theorem C1_counterexample_identical_forecast :
    (fillFutureProjections 2023
        ([((2023 : ℤ), (100 : ℝ)), (2024, 110), (2025, 110), (2026, 110), (2027, 110),
          (2028, 110)] : SeriesR) ([] : SeriesR) ([] : SeriesR) ([] : SeriesR)
        ([((2024 : ℤ), (20 : ℝ)), (2025, 20), (2026, 20), (2027, 20), (2028, 20)] : SeriesR)
        .atar).1.get 2024
      = (fillFutureProjections 2023
        ([((2023 : ℤ), (100 : ℝ)), (2024, 110), (2025, 110), (2026, 110), (2027, 110),
          (2028, 110)] : SeriesR) ([] : SeriesR) ([] : SeriesR) ([] : SeriesR)
        ([((2024 : ℤ), (20 : ℝ)), (2025, 20), (2026, 20), (2027, 20), (2028, 20)] : SeriesR)
        .management).1.get 2024 ∧
    (fillFutureProjections 2023
        ([((2023 : ℤ), (100 : ℝ)), (2024, 110), (2025, 110), (2026, 110), (2027, 110),
          (2028, 110)] : SeriesR) ([] : SeriesR) ([] : SeriesR) ([] : SeriesR)
        ([((2024 : ℤ), (20 : ℝ)), (2025, 20), (2026, 20), (2027, 20), (2028, 20)] : SeriesR)
        .atar).1.get 2024 = some 110 ∧
    (fillFutureProjections 2023
        ([((2023 : ℤ), (100 : ℝ)), (2024, 110), (2025, 110), (2026, 110), (2027, 110),
          (2028, 110)] : SeriesR) ([] : SeriesR) ([] : SeriesR) ([] : SeriesR)
        ([((2024 : ℤ), (20 : ℝ)), (2025, 20), (2026, 20), (2027, 20), (2028, 20)] : SeriesR)
        .atar).2.2.2.get 2024
      = (fillFutureProjections 2023
        ([((2023 : ℤ), (100 : ℝ)), (2024, 110), (2025, 110), (2026, 110), (2027, 110),
          (2028, 110)] : SeriesR) ([] : SeriesR) ([] : SeriesR) ([] : SeriesR)
        ([((2024 : ℤ), (20 : ℝ)), (2025, 20), (2026, 20), (2027, 20), (2028, 20)] : SeriesR)
        .management).2.2.2.get 2024 ∧
    (fillFutureProjections 2023
        ([((2023 : ℤ), (100 : ℝ)), (2024, 110), (2025, 110), (2026, 110), (2027, 110),
          (2028, 110)] : SeriesR) ([] : SeriesR) ([] : SeriesR) ([] : SeriesR)
        ([((2024 : ℤ), (20 : ℝ)), (2025, 20), (2026, 20), (2027, 20), (2028, 20)] : SeriesR)
        .atar).2.2.2.get 2024 = some 20 := by
  refine ⟨?_, ?_, ?_, ?_⟩ <;> rfl

/-- C10: the projection routines only fill gaps, never overwrite: every year
already present in a series passed to `_fill_future_projections` (revenue,
gross profit, operating expense, EBITDA) or `_prepare_tale_projections`
(capex, working-capital change, one-time cost — both scenarios) keeps its
value; new values appear only at years that were absent, within
`base_year+1 .. base_year+5` (plus the interior revenue gap years). -/
theorem C10_projection_fills_gaps_only (baseYear : ℤ)
    (revenue gp oi opex ebitda : SeriesR) (mode : Mode) (y : ℤ) :
    ((revenue.get y).isSome →
      (fillFutureProjections baseYear revenue gp oi opex ebitda mode).1.get y
        = revenue.get y) ∧
    ((gp.get y).isSome →
      (fillFutureProjections baseYear revenue gp oi opex ebitda mode).2.1.get y
        = gp.get y) ∧
    ((opex.get y).isSome →
      (fillFutureProjections baseYear revenue gp oi opex ebitda mode).2.2.1.get y
        = opex.get y) ∧
    ((ebitda.get y).isSome →
      (fillFutureProjections baseYear revenue gp oi opex ebitda mode).2.2.2.get y
        = ebitda.get y) ∧
    ((fillFutureProjections baseYear revenue gp oi opex ebitda mode).1.get y
        ≠ revenue.get y →
      revenue.get y = Option.none ∧
        (y ∈ revGapYears baseYear revenue ∨ (baseYear + 1 ≤ y ∧ y ≤ baseYear + 5))) ∧
    ((fillFutureProjections baseYear revenue gp oi opex ebitda mode).2.1.get y ≠ gp.get y →
      gp.get y = Option.none ∧ baseYear + 1 ≤ y ∧ y ≤ baseYear + 5) ∧
    ((fillFutureProjections baseYear revenue gp oi opex ebitda mode).2.2.1.get y
        ≠ opex.get y →
      opex.get y = Option.none ∧ baseYear + 1 ≤ y ∧ y ≤ baseYear + 5) ∧
    ((fillFutureProjections baseYear revenue gp oi opex ebitda mode).2.2.2.get y
        ≠ ebitda.get y →
      ebitda.get y = Option.none ∧ baseYear + 1 ≤ y ∧ y ≤ baseYear + 5) ∧
    (∀ (hist revA revM : SeriesR) (mt : TaleMetric),
      ((hist.get y).isSome →
        (prepareTaleProjections baseYear hist revA revM mt).1.get y = hist.get y ∧
        (prepareTaleProjections baseYear hist revA revM mt).2.get y = hist.get y) ∧
      ((prepareTaleProjections baseYear hist revA revM mt).1.get y ≠ hist.get y →
        hist.get y = Option.none ∧ baseYear + 1 ≤ y ∧ y ≤ baseYear + 5) ∧
      ((prepareTaleProjections baseYear hist revA revM mt).2.get y ≠ hist.get y →
        hist.get y = Option.none ∧ baseYear + 1 ≤ y ∧ y ≤ baseYear + 5)) := by
  have hrev := fillRevenue_frame baseYear revenue mode y
  have hgp := fillGrossProfit_frame baseYear (fillRevenue baseYear revenue mode) gp mode y
  have hop := fillOpex_frame baseYear (fillRevenue baseYear revenue mode) opex mode y
  have heb := fillEbitda_frame baseYear
    (fillGrossProfit baseYear (fillRevenue baseYear revenue mode) gp mode)
    (fillOpex baseYear (fillRevenue baseYear revenue mode) opex mode) ebitda y
  refine ⟨hrev.1, hgp.1, hop.1, heb.1, ?_, ?_, ?_, ?_, ?_⟩
  · intro hne
    obtain ⟨h1, h2⟩ := hrev.2 hne
    refine ⟨h1, ?_⟩
    rcases h2 with h2 | h2
    · exact Or.inl h2
    · have := mem_intRange.mp h2
      exact Or.inr ⟨this.1, by omega⟩
  · intro hne
    obtain ⟨h1, h2⟩ := hgp.2 hne
    have := mem_intRange.mp h2
    exact ⟨h1, this.1, by omega⟩
  · intro hne
    obtain ⟨h1, h2⟩ := hop.2 hne
    have := mem_intRange.mp h2
    exact ⟨h1, this.1, by omega⟩
  · intro hne
    obtain ⟨h1, h2⟩ := heb.2 hne
    have := mem_intRange.mp h2
    exact ⟨h1, this.1, by omega⟩
  · intro hist revA revM mt
    have ht := prepareTale_frame baseYear hist revA revM mt y
    refine ⟨ht.1, ?_, ?_⟩
    · intro hne
      obtain ⟨h1, h2⟩ := ht.2.1 hne
      have := mem_intRange.mp h2
      exact ⟨h1, this.1, by omega⟩
    · intro hne
      obtain ⟨h1, h2⟩ := ht.2.2 hne
      have := mem_intRange.mp h2
      exact ⟨h1, this.1, by omega⟩

/-- Witness for C10 at a concrete input: a present year survives both the
projection fill and the tale fill unchanged. -/
theorem C10_projection_fills_gaps_only_witness :
    ((SeriesR.get ([((2023 : ℤ), (100 : ℝ))] : SeriesR) 2023).isSome →
      (fillFutureProjections 2023 ([((2023 : ℤ), (100 : ℝ))] : SeriesR) ([] : SeriesR)
        ([] : SeriesR) ([] : SeriesR) ([] : SeriesR) .atar).1.get 2023
        = SeriesR.get ([((2023 : ℤ), (100 : ℝ))] : SeriesR) 2023) ∧
    ((fillFutureProjections 2023 ([((2023 : ℤ), (100 : ℝ))] : SeriesR) ([] : SeriesR)
        ([] : SeriesR) ([] : SeriesR) ([] : SeriesR) .atar).1.get 2023
      = SeriesR.get ([((2023 : ℤ), (100 : ℝ))] : SeriesR) 2023) ∧
    ((prepareTaleProjections 2023 ([((2023 : ℤ), (-5 : ℝ))] : SeriesR) ([] : SeriesR)
        ([] : SeriesR) .oneTime).1.get 2023
      = SeriesR.get ([((2023 : ℤ), (-5 : ℝ))] : SeriesR) 2023) :=
  ⟨(C10_projection_fills_gaps_only 2023 ([((2023 : ℤ), (100 : ℝ))] : SeriesR) ([] : SeriesR)
      ([] : SeriesR) ([] : SeriesR) ([] : SeriesR) .atar 2023).1,
   (C10_projection_fills_gaps_only 2023 ([((2023 : ℤ), (100 : ℝ))] : SeriesR) ([] : SeriesR)
      ([] : SeriesR) ([] : SeriesR) ([] : SeriesR) .atar 2023).1 rfl,
   (((C10_projection_fills_gaps_only 2023 ([((2023 : ℤ), (100 : ℝ))] : SeriesR)
      ([] : SeriesR) ([] : SeriesR) ([] : SeriesR) ([] : SeriesR) .atar
      2023).2.2.2.2.2.2.2.2 ([((2023 : ℤ), (-5 : ℝ))] : SeriesR) ([] : SeriesR)
      ([] : SeriesR) .oneTime).1 rfl).1⟩

lemma sheetUpdates_eq_true (bsData : Bool) (s : SheetInfo) :
    sheetUpdates bsData s = true ↔
      s.hasYearBlocks = true ∧ (s.hasResolvedRow = true ∨
        (s.hasAssets = true ∧ s.hasLiabilities = true ∧ bsData = true)) := by
  obtain ⟨yb, rr, as, li⟩ := s
  unfold sheetUpdates
  cases yb <;> cases rr <;> cases as <;> cases li <;> cases bsData <;> simp

/-- C8 (amended): `generate_excel_report` raises its fatal error, and saves
nothing, exactly when no sheet yields a year-block layout together with
either a row map with at least one resolved row or the balance-sheet
fallback (the sheet contains "Assets" and "Liabilities" and balance-sheet
data was supplied); when some sheet qualifies it saves exactly one file and
returns its name. -/
theorem C8_report_save_or_raise (sheets : List SheetInfo) (bsData : Bool) (fn : String) :
    ((∃ e, generateExcelReport sheets bsData fn = Except.error e) ↔
      ¬ ∃ s ∈ sheets, s.hasYearBlocks = true ∧ (s.hasResolvedRow = true ∨
        (s.hasAssets = true ∧ s.hasLiabilities = true ∧ bsData = true))) ∧
    ((∃ s ∈ sheets, s.hasYearBlocks = true ∧ (s.hasResolvedRow = true ∨
        (s.hasAssets = true ∧ s.hasLiabilities = true ∧ bsData = true))) →
      generateExcelReport sheets bsData fn = Except.ok fn) := by
  unfold generateExcelReport
  by_cases ha : sheets.any (sheetUpdates bsData) = true
  · rw [if_pos ha]
    constructor
    · constructor
      · rintro ⟨e, he⟩
        exact Except.noConfusion he
      · intro hn
        exfalso
        apply hn
        obtain ⟨s, hs, hupd⟩ := List.any_eq_true.mp ha
        exact ⟨s, hs, (sheetUpdates_eq_true bsData s).mp hupd⟩
    · intro _
      rfl
  · rw [if_neg ha]
    have hnex : ¬ ∃ s ∈ sheets, s.hasYearBlocks = true ∧ (s.hasResolvedRow = true ∨
        (s.hasAssets = true ∧ s.hasLiabilities = true ∧ bsData = true)) := by
      intro hex
      obtain ⟨s, hs, hcond⟩ := hex
      exact ha (List.any_eq_true.mpr ⟨s, hs, (sheetUpdates_eq_true bsData s).mpr hcond⟩)
    constructor
    · constructor
      · intro _
        exact hnex
      · intro _
        exact ⟨_, rfl⟩
    · intro hex
      exact absurd hex hnex

/-- Witness for C8 at a concrete workbook. -/
theorem C8_report_save_or_raise_witness :
    generateExcelReport [⟨true, true, false, false⟩] false "out.xlsm"
      = Except.ok "out.xlsm" :=
  (C8_report_save_or_raise [⟨true, true, false, false⟩] false "out.xlsm").2
    ⟨⟨true, true, false, false⟩, by decide, by decide⟩

/-- Counterexample to C8 as stated: a workbook whose only sheet has year
blocks but no resolved row map, and triggers the balance-sheet fallback
("Assets" and "Liabilities" present, balance-sheet data supplied) — the
claim predicts the fatal error with no file saved, but the code saves the
file and returns its name. -/
theorem C8_counterexample_balance_sheet_path :
    generateExcelReport [⟨true, false, true, true⟩] true "report.xlsm"
      = Except.ok "report.xlsm" ∧
    ¬ ∃ s ∈ [SheetInfo.mk true false true true],
      s.hasYearBlocks = true ∧ s.hasResolvedRow = true := by
  constructor
  · rfl
  · decide

end ReportGen
